import Mathlib

/-!
Verification development for the INS1000 rover driver
(`driver_ins1000.py`, `message.py`, `file_storage.py`).

The Python sources are shallowly embedded as executable Lean definitions:

* machine bytes are `Nat` (values below 256 on real inputs);
* Python floats are modelled as `ℚ` where the code does arithmetic on
  them, and as their 64-bit IEEE bit patterns (a `Nat`) where the code
  only moves them byte-for-byte (`struct.pack('<d', ...)`);
* `int(x)` (truncation toward zero) is modelled exactly on `ℚ`;
* Python exceptions are modelled by `Option`/explicit fault values;
* the two-byte checksum `utility.check_sum` and the quaternion
  conversion `utility.cal_attitude` are not part of the provided
  sources, so everything that uses them is parameterized over an
  arbitrary function, and a concrete spec-modelled instance is used
  only to build concrete witnesses.
-/

namespace INS1000

/-! ## Frame assembly (the `parser` task of `driver_ins1000.py`, lines 120-185) -/

/-- Parser-task state: the 3-byte sliding window (`sync_pattern`, a
3-element deque initialized to zeros), the `find_header` flag, the
`frame` accumulator and the captured `payload_len`. -/
structure ParserState where
  sync_pattern : List Nat
  find_header : Bool
  frame : List Nat
  payload_len : Nat
deriving DecidableEq

/-- Initial parser state: `collections.deque(3*[0], 3)`, no header found,
empty frame, `payload_len = 0`. -/
def initParser : ParserState := ⟨[0, 0, 0], false, [], 0⟩

/-- `HEADER_05 = [0XAF, 0X20, 0X05]`. -/
def HEADER_05 : List Nat := [0xAF, 0x20, 0x05]

/-- `HEADER_06 = [0XAF, 0X20, 0X06]`. -/
def HEADER_06 : List Nat := [0xAF, 0x20, 0x06]

/-- `HEADER_07 = [0XAF, 0X20, 0X07]`. -/
def HEADER_07 : List Nat := [0xAF, 0x20, 0x07]

/-- Appending one byte to the 3-element deque `sync_pattern`: the oldest
byte is dropped. -/
def syncShift (s : List Nat) (d : Nat) : List Nat := s.drop 1 ++ [d]

/-- The three-way header comparison of lines 175-183: returns the header
list the window matches, if any. -/
def headerMatch (s : List Nat) : Option (List Nat) :=
  if s = HEADER_05 then some HEADER_05
  else if s = HEADER_06 then some HEADER_06
  else if s = HEADER_07 then some HEADER_07
  else none

/-- Lines 160-161: compute `check_sum` over
`frame[PAYLOAD_LEN_IDX+2 : PAYLOAD_LEN_IDX+payload_len+2]` and compare
its two components with `frame[-2]` and `frame[-1]`.  The checksum
function itself is a parameter `cs`. -/
def checksumPass (cs : List Nat → Nat × Nat) (frame : List Nat) (payload_len : Nat) : Bool :=
  let result := cs ((frame.drop 6).take payload_len)
  decide (result.1 = frame.getD (frame.length - 2) 0 ∧
          result.2 = frame.getD (frame.length - 1) 0)

/-- One iteration of the parser loop body for a dequeued byte `data`
(lines 153-185).  Returns the new state and the frame dispatched to
`parse_frame`, if any.  The inner triple mirrors the
`if/elif/else` ladder of lines 155-167 (new `find_header`, new
`payload_len`, dispatch); the `MAX_FRAME_LIMIT` guard of lines 169-171
runs afterwards on the updated `payload_len`, exactly as in the source. -/
def parserStep (cs : List Nat → Nat × Nat) (st : ParserState) (data : Nat) :
    ParserState × Option (List Nat) :=
  if st.find_header then
    let frame := st.frame ++ [data]
    let step1 : Bool × Nat × Option (List Nat) :=
      if frame.length = 6 then
        (true, 256 * frame.getD 5 0 + frame.getD 4 0, none)
      else if frame.length = 6 + st.payload_len + 2 then
        (false, st.payload_len,
          if checksumPass cs frame st.payload_len then some frame else none)
      else
        (true, st.payload_len, none)
    if 500 < step1.2.1 ∨ 500 < frame.length then
      ({ st with frame := frame, find_header := false, payload_len := 0 }, step1.2.2)
    else
      ({ st with frame := frame, find_header := step1.1, payload_len := step1.2.1 }, step1.2.2)
  else
    let s := syncShift st.sync_pattern data
    match headerMatch s with
    | some h => ({ st with sync_pattern := s, frame := h, find_header := true }, none)
    | none => ({ st with sync_pattern := s }, none)

/-- Run the parser over a byte stream, collecting every frame dispatched
to `parse_frame`, in order. -/
def runParser (cs : List Nat → Nat × Nat) : ParserState → List Nat →
    ParserState × List (List Nat)
  | st, [] => (st, [])
  | st, d :: rest =>
    let p := parserStep cs st d
    let r := runParser cs p.1 rest
    (r.1, p.2.toList ++ r.2)

/-- A complete wire frame: 3-byte class header `AF 20 x`, sub-id byte,
little-endian 16-bit payload length, the payload, and a 2-byte trailer. -/
def mkFrame (x s : Nat) (payload : List Nat) (u v : Nat) : List Nat :=
  [0xAF, 0x20, x] ++ [s, payload.length % 256, payload.length / 256] ++ payload ++ [u, v]

/-- The `payload_len` value in effect after `parserStep` processes byte
`d` in a frame-accumulation state: recaptured from bytes 4 and 5 when
the frame reaches six bytes, unchanged otherwise. -/
def stepPl (st : ParserState) (d : Nat) : Nat :=
  if st.frame.length + 1 = 6 then
    256 * (st.frame ++ [d]).getD 5 0 + (st.frame ++ [d]).getD 4 0
  else st.payload_len

/-- Reachability invariant of the parser state: the captured payload
length never exceeds 500 across loop iterations, the frame buffer never
holds more than 501 bytes, and while a frame is being accumulated it
holds at most 500 bytes. -/
def ParserInv (st : ParserState) : Prop :=
  st.payload_len ≤ 500 ∧ st.frame.length ≤ 501 ∧
    (st.find_header = true → st.frame.length ≤ 500)

/-- Spec-modelled: `utility.check_sum` is not among the provided source
files.  The spec fixes only its signature (byte sequence to an ordered
pair of bytes); this concrete Fletcher-style instance, consistent with
the hard-coded command frames of `driver_ins1000.py` (single-byte
payload `b` giving trailer `b b`), is used solely to instantiate the
`cs` parameter in concrete witnesses and counterexamples. -/
def check_sum_model (payload : List Nat) : Nat × Nat :=
  payload.foldl (fun acc b => ((acc.1 + b) % 256, (acc.2 + acc.1 + b) % 256)) (0, 0)

/-! ## User-configuration codec (`message.py`, class `Msg_060C_topic_0A`) -/

/-- Python exceptions raised by the codec: `ValueError` for the explicit
shape checks, `IndexError` for an out-of-range list subscript. -/
inductive PyFault
  | invalidInput
  | indexError
deriving DecidableEq

/-- Truncation toward zero, the semantics of Python `int(x)` on a number. -/
def pyInt (q : ℚ) : Int := q.num.tdiv q.den

/-- `SCALING_LEVER_ARM = 1.0e-4`. -/
def SCALING_LEVER_ARM : ℚ := 1 / 10000

/-- `int(p / SCALING_LEVER_ARM)`: engineering value to raw integer units. -/
def toRawLever (p : ℚ) : Int := pyInt (p / SCALING_LEVER_ARM)

/-- The decoded user-configuration state (`Msg_060C_topic_0A.__init__` /
`unpack_msg_060C_topic_0A`).  Doubles that the code only repacks
byte-for-byte (`imu_rotation_matrix`, `DMI_scale_factor`) are modelled
by their 64-bit IEEE bit patterns; lever arms are kept in raw integer
units (`int32`), exactly as stored by the decoder. -/
structure Msg060C where
  topic : Nat
  indicators : Nat
  flags : Nat
  ICD_num : Nat
  min_vel : Nat
  max_unaided_time : Nat
  max_output_rate : Nat
  imu_rotation_matrix : List Nat
  output_position_offset : List Int
  smooth_mode : Nat
  GNSS_lever_arm_center : List (List Int)
  GNSS_lever_arm_housing_mark : List (List Int)
  internal_lever_arm : List Int
  GNSS_lever_arm_uncertainty : List Nat
  ICD_configuration : List Nat
  DMI_id : Nat
  DMI_scale_factor : Nat
  DMI_lever_arm : List Int
  DMI_lever_arm_uncertainty : Nat
  DMI_options : Nat
  extended_version_flag : Bool
  antenna_num : Nat
  DMI_exists : Nat
  flags_init_heading_from_GNSS_vel : Bool
  flags_leverarm_from_imu_center : Bool
deriving DecidableEq

/-- The body of the back-fill comprehension
`[src[an][i] op internal[i] for i in range(3)]`: `none` when any of the
six subscripts is out of range (Python `IndexError`). -/
def combine3 (f : Int → Int → Int) (u iv : List Int) : Option (List Int) :=
  match u[0]?, u[1]?, u[2]?, iv[0]?, iv[1]?, iv[2]? with
  | some c0, some c1, some c2, some i0, some i1, some i2 =>
      some [f c0 i0, f c1 i1, f c2 i2]
  | _, _, _, _, _, _ => none

/-- The loop `for an in range(n): out.append([src[an][i] op iv[i] ...])`,
started at index `an` with `cnt` iterations remaining.  On a fault the
entries appended so far are kept (the Python list keeps them too) and
the fault is reported. -/
def backfillAux (f : Int → Int → Int) (src : List (List Int)) (iv : List Int) :
    Nat → Nat → List (List Int) × Option PyFault
  | _, 0 => ([], none)
  | an, cnt + 1 =>
    match src[an]? with
    | none => ([], some .indexError)
    | some c =>
      match combine3 f c iv with
      | none => ([], some .indexError)
      | some e =>
        let r := backfillAux f src iv (an + 1) cnt
        (e :: r.1, r.2)

/-- `set_imu_rotation_matrix` (lines 262-265): `ValueError` unless the
supplied matrix has exactly 9 elements. -/
def set_imu_rotation_matrix (m : Msg060C) (matrix : List Nat) : Msg060C × Option PyFault :=
  if matrix.length ≠ 9 then (m, some .invalidInput)
  else ({ m with imu_rotation_matrix := matrix }, none)

/-- `set_GNSS_lever_arm_center` (lines 274-285).  The Python guard
`len(lever_arm) != antenna_num or len(lever_arm[0]) != 3` short-circuits:
when the length check passes on an empty list, `lever_arm[0]` raises
`IndexError` instead of `ValueError`.  On success the center list is
reassigned to the rescaled input and the housing-mark list is rebuilt
as `center - internal_lever_arm` component-wise. -/
def set_GNSS_lever_arm_center (m : Msg060C) (lever_arm : List (List ℚ)) :
    Msg060C × Option PyFault :=
  if lever_arm.length ≠ m.antenna_num then (m, some .invalidInput)
  else
    match lever_arm.head? with
    | none => (m, some .indexError)
    | some first =>
      if first.length ≠ 3 then (m, some .invalidInput)
      else
        let center := lever_arm.map (fun la => la.map toRawLever)
        let r := backfillAux (· - ·) center m.internal_lever_arm 0 m.antenna_num
        ({ m with GNSS_lever_arm_center := center,
                  GNSS_lever_arm_housing_mark := r.1 }, r.2)

/-- `set_GNSS_lever_arm_housing_mark` (lines 295-306), symmetric to the
center setter: the housing-mark list is reassigned and the center list
rebuilt as `housing_mark + internal_lever_arm`. -/
def set_GNSS_lever_arm_housing_mark (m : Msg060C) (lever_arm : List (List ℚ)) :
    Msg060C × Option PyFault :=
  if lever_arm.length ≠ m.antenna_num then (m, some .invalidInput)
  else
    match lever_arm.head? with
    | none => (m, some .indexError)
    | some first =>
      if first.length ≠ 3 then (m, some .invalidInput)
      else
        let hm := lever_arm.map (fun la => la.map toRawLever)
        let r := backfillAux (· + ·) hm m.internal_lever_arm 0 m.antenna_num
        ({ m with GNSS_lever_arm_housing_mark := hm,
                  GNSS_lever_arm_center := r.1 }, r.2)

/-- `update_GNSS_lever_arm_by_internal_lever_arm` (lines 308-316): store
the internal lever arm in raw units, then *append* (not rewrite) the
derived entries for antennas `0..antenna_num` onto the other
representation. -/
def update_GNSS_lever_arm_by_internal_lever_arm (m : Msg060C)
    (internal_lever_arm : List ℚ) : Msg060C × Option PyFault :=
  let iv := internal_lever_arm.map toRawLever
  let m1 := { m with internal_lever_arm := iv }
  if m.flags_leverarm_from_imu_center then
    let r := backfillAux (· - ·) m.GNSS_lever_arm_center iv 0 m.antenna_num
    ({ m1 with GNSS_lever_arm_housing_mark := m.GNSS_lever_arm_housing_mark ++ r.1 }, r.2)
  else
    let r := backfillAux (· + ·) m.GNSS_lever_arm_housing_mark iv 0 m.antenna_num
    ({ m1 with GNSS_lever_arm_center := m.GNSS_lever_arm_center ++ r.1 }, r.2)

/-- The loop `for an in range(n): out.append([p*SCALING for p in src[an]])`
shared by the two lever-arm getters, started at `an` with `cnt`
iterations remaining; `IndexError` when `src[an]` is out of range. -/
def gatherScaled (src : List (List Int)) : Nat → Nat → List (List ℚ) × Option PyFault
  | _, 0 => ([], none)
  | an, cnt + 1 =>
    match src[an]? with
    | none => ([], some .indexError)
    | some la =>
      let r := gatherScaled src (an + 1) cnt
      ((la.map fun p => (p : ℚ) * SCALING_LEVER_ARM) :: r.1, r.2)

/-- `get_GNSS_lever_arm_center` (lines 267-271): no emptiness guard. -/
def get_GNSS_lever_arm_center (m : Msg060C) : List (List ℚ) × Option PyFault :=
  gatherScaled m.GNSS_lever_arm_center 0 m.antenna_num

/-- `get_GNSS_lever_arm_housing_mark` (lines 287-293): returns the empty
list immediately when the stored housing-mark list is empty. -/
def get_GNSS_lever_arm_housing_mark (m : Msg060C) : List (List ℚ) × Option PyFault :=
  if m.GNSS_lever_arm_housing_mark = [] then ([], none)
  else gatherScaled m.GNSS_lever_arm_housing_mark 0 m.antenna_num

/-- The lever-arm consistency invariant of the spec: for every antenna,
`center[a] = housing_mark[a] + internal_lever_arm` component-wise in raw
integer units. -/
def LeverArmInv (m : Msg060C) : Prop :=
  ∀ a, a < m.antenna_num → ∀ i, i < 3 →
    (m.GNSS_lever_arm_center.getD a []).getD i 0 =
      (m.GNSS_lever_arm_housing_mark.getD a []).getD i 0 + m.internal_lever_arm.getD i 0

instance (m : Msg060C) : Decidable (LeverArmInv m) := by
  unfold LeverArmInv; infer_instance

/-! ### The `pack_msg_060D` encoder (`message.py`, lines 159-242)

Serialization helpers model Python's `to_bytes(..., 'little')` and
`struct.pack`; the range/arity checks those calls perform are modelled
by `Option` (a failed check is a raised exception). -/

/-- Little-endian byte serialization, `k` bytes. -/
def leBytes : Nat → Nat → List Nat
  | 0, _ => []
  | k + 1, n => n % 256 :: leBytes k (n / 256)

/-- Two-byte little-endian serialization (`to_bytes(2, 'little')`). -/
def le2 (n : Nat) : List Nat := leBytes 2 n

/-- `struct.pack('<i', z)` range check. -/
def int32ok (z : Int) : Bool := decide (-(2 ^ 31) ≤ z ∧ z < 2 ^ 31)

/-- Two's-complement little-endian encoding of an `int32`. -/
def int32le (z : Int) : List Nat := leBytes 4 (z % 2 ^ 32).toNat

/-- Guard helper: `some ()` when the (decidable) check passes, `none`
(a raised Python exception) otherwise. -/
def pguard (p : Prop) [Decidable p] : Option Unit :=
  if p then some () else none

/-- `FRAME_HEADER = bytearray(b'\xAF\x20\x06\x0D')`. -/
def FRAME_HEADER_060D : List Nat := [0xAF, 0x20, 0x06, 0x0D]

/-- Payload assembly of `pack_msg_060D` (lines 170-231), together with
the rewritten `flags` byte (lines 172-175: bit 2 cleared when the
center representation is authoritative, set otherwise).  Faults model
`bytearray.append` byte-range checks and `struct.pack`/`to_bytes`
arity and range checks. -/
def pack_payload_060D (m : Msg060C) : Option (List Nat × Nat) := do
  let flags2 := if m.flags_leverarm_from_imu_center
    then m.flags - (m.flags &&& 4) else m.flags ||| 4
  pguard (m.topic < 256 ∧ m.indicators < 256 ∧ flags2 < 256 ∧
          m.ICD_num < 256 ∧ m.min_vel < 256)
  pguard (m.max_unaided_time < 65536 ∧ m.max_output_rate < 65536)
  let head := [m.topic, m.indicators, flags2, m.ICD_num, m.min_vel] ++
    le2 m.max_unaided_time ++ le2 m.max_output_rate
  pguard (m.imu_rotation_matrix.length = 9)
  let mat := (m.imu_rotation_matrix.map (leBytes 8)).flatten
  pguard (m.output_position_offset.length = 3 ∧ m.output_position_offset.all int32ok)
  let off := (m.output_position_offset.map int32le).flatten
  let smooth ← if m.extended_version_flag then
      do pguard (m.smooth_mode < 256); pure [m.smooth_mode]
    else pure []
  let flat := (if m.flags_leverarm_from_imu_center
    then m.GNSS_lever_arm_center else m.GNSS_lever_arm_housing_mark).flatten
  pguard (flat.length = m.antenna_num * 3 ∧ flat.all int32ok)
  let la := (flat.map int32le).flatten
  let unc ← if m.extended_version_flag then
      do pguard (m.GNSS_lever_arm_uncertainty.length = m.antenna_num ∧
                 m.GNSS_lever_arm_uncertainty.all (· < 65536))
         pure (m.GNSS_lever_arm_uncertainty.map le2).flatten
    else pure []
  let icd ← if 0 < m.ICD_num then
      do pguard (m.ICD_configuration.length = 2 * m.ICD_num ∧
                 m.ICD_configuration.all (· < 256))
         pure m.ICD_configuration
    else pure []
  let dmi ← if 0 < m.DMI_exists then
      do pguard (m.DMI_exists < 256)
         pguard (m.DMI_lever_arm.length = 3 ∧ m.DMI_lever_arm.all int32ok)
         let dmiExt ← if m.extended_version_flag then
             do pguard (m.DMI_lever_arm_uncertainty < 65536 ∧ m.DMI_options < 256)
                pure (le2 m.DMI_lever_arm_uncertainty ++ [m.DMI_options])
           else pure []
         pure ([m.DMI_exists] ++ leBytes 8 m.DMI_scale_factor ++
               (m.DMI_lever_arm.map int32le).flatten ++ dmiExt)
    else pure []
  pure (head ++ mat ++ off ++ smooth ++ la ++ unc ++ icd ++ dmi, flags2)

/-- `pack_msg_060D` (lines 159-242): the assembled command starts as
header plus payload; the two-byte little-endian payload length is then
spliced in at offset 4, `check_sum` is computed over everything from
offset 6 on (= the payload), and its two components are appended with
`result[1]` first and `result[0]` second.  Returns the updated state
(rewritten `flags`) and the command bytes. -/
def pack_msg_060D (cs : List Nat → Nat × Nat) (m : Msg060C) :
    Option (Msg060C × List Nat) := do
  let pf ← pack_payload_060D m
  pguard (pf.1.length < 65536)
  let cmd := FRAME_HEADER_060D ++ le2 pf.1.length ++ pf.1
  let r := cs (cmd.drop 6)
  pure ({ m with flags := pf.2 }, cmd ++ [r.2, r.1])

/-- The parser's inbound frame validation, as a standalone predicate:
read `payload_len` little-endian from bytes 4 and 5 and apply the
checksum comparison of `parser` lines 160-161. -/
def frameValid (cs : List Nat → Nat × Nat) (frame : List Nat) : Bool :=
  checksumPass cs frame (256 * frame.getD 5 0 + frame.getD 4 0)

/-! ## Fixed-shape packet decoding (`unpack_output_packet`,
`driver_ins1000.py` lines 441-498) -/

/-- The wire-type tags recognized by the packet catalog. -/
inductive FieldType
  | string | float | uint32 | int32 | int16 | uint16
  | double | int64 | uint64 | char | uchar | uint8
deriving DecidableEq

/-- One catalog payload field: name and wire type. -/
structure PField where
  name : String
  type : FieldType
deriving DecidableEq

/-- Byte width contributed by each wire type to the pack format
(lines 460-492); `string` contributes nothing (it short-circuits). -/
def typeWidth : FieldType → Nat
  | .float => 4 | .uint32 => 4 | .int32 => 4
  | .int16 => 2 | .uint16 => 2
  | .double => 8 | .int64 => 8 | .uint64 => 8
  | .char => 1 | .uchar => 1 | .uint8 => 1
  | .string => 0

/-- Little-endian value of a byte list. -/
def leNat : List Nat → Nat
  | [] => 0
  | b :: rest => b + 256 * leNat rest

/-- Two's-complement reinterpretation of a `w`-byte unsigned value. -/
def toSigned (w : Nat) (v : Nat) : Int :=
  if v < 2 ^ (8 * w - 1) then (v : Int) else (v : Int) - 2 ^ (8 * w)

/-- The value `struct.unpack` produces for one field from its bytes.
Signed integer types are two's-complement; unsigned types are the plain
little-endian value; `float`/`double` are modelled by their IEEE bit
patterns and `char` by its byte value. -/
def decodeField (t : FieldType) (bs : List Nat) : Int :=
  match t with
  | .int16 => toSigned 2 (leNat bs)
  | .int32 => toSigned 4 (leNat bs)
  | .int64 => toSigned 8 (leNat bs)
  | _ => (leNat bs : Int)

/-- Result of `unpack_output_packet`: an ordered name-to-value list, or
the single-field text result of `handle_string_filed` (the decoded text
kept as raw bytes). -/
inductive UnpackResult
  | fields (l : List (String × Int))
  | text (name : String) (bytes : List Nat)
deriving DecidableEq

/-- `handle_string_filed` (lines 441-452): `struct.pack('{n}B', *payload)`
demands exactly `string_len` items, then the whole payload is returned
as one named text field. -/
def handle_string_filed (value : PField) (payload : List Nat) (string_len : Nat) :
    Option UnpackResult :=
  if payload.length = string_len then some (.text value.name payload) else none

/-- Sequential decode of the concatenated little-endian pack format: each
field consumes its type's width and is paired with its name, modelling
`struct.unpack(pack_fmt, b)` plus the `enumerate` zip of line 496. -/
def splitDecode : List PField → List Nat → List (String × Int)
  | [], _ => []
  | f :: fs, bs =>
    (f.name, decodeField f.type (bs.take (typeWidth f.type))) ::
      splitDecode fs (bs.drop (typeWidth f.type))

/-- `unpack_output_packet` (lines 454-498): the field loop short-circuits
to `handle_string_filed` at the first `string`-typed field; otherwise
the per-field type codes are concatenated into one little-endian format
of total width `N` and `struct.pack('{N}B', *payload)` demands exactly
`N` payload items before the values are unpacked and zipped with the
field names. -/
def unpack_output_packet (fields : List PField) (payload : List Nat)
    (payload_len : Nat) : Option UnpackResult :=
  match fields.find? (fun f => f.type = .string) with
  | some f => handle_string_filed f payload payload_len
  | none =>
    if payload.length = (fields.map fun f => typeWidth f.type).sum then
      some (.fields (splitDecode fields payload))
    else none

/-- Byte offset of field `i` inside the packed payload: the summed
widths of the fields declared before it. -/
def fieldOffset (fields : List PField) (i : Nat) : Nat :=
  ((fields.take i).map fun f => typeWidth f.type).sum

/-! ## Decoded packet values and the message cache -/

/-- A decoded Python value: an `int`, a float (as `ℚ`), or a string. -/
inductive PVal
  | i (z : Int)
  | q (r : ℚ)
  | s (t : String)
deriving DecidableEq

/-- A decoded packet: an ordered name-to-value dictionary. -/
abbrev Packet := List (String × PVal)

/-- Dictionary lookup (`d[k]`, absent key modelled as `none`). -/
def aget {α : Type} : List (String × α) → String → Option α
  | [], _ => none
  | (k0, v0) :: rest, k => if k0 = k then some v0 else aget rest k

/-- Dictionary update `d[k] = v`: replace in place, else append. -/
def aset {α : Type} : List (String × α) → String → α → List (String × α)
  | [], k, v => [(k, v)]
  | (k0, v0) :: rest, k, v =>
    if k0 = k then (k0, v) :: rest else (k0, v0) :: aset rest k v

/-- Numeric view of a `PVal` (`none` models a `TypeError` on a string). -/
def pvalRat : PVal → Option ℚ
  | .i z => some (z : ℚ)
  | .q r => some r
  | .s _ => none

/-- Python `int(x)` on a packet value. -/
def pvalInt : PVal → Option Int
  | .i z => some z
  | .q r => some (pyInt r)
  | .s _ => none

/-- Python `str(x)` on a packet value (only the structure matters here). -/
def pvalStr : PVal → String
  | .s t => t
  | .i z => toString z
  | .q r => toString r

/-- A numeric value used as a dict key against the integer-keyed mode
tables: floats hash equal to integers exactly when they are integral. -/
def modeKey : PVal → Option Int
  | .i z => some z
  | .q r => if r.den = 1 then some r.num else none
  | .s _ => none

/-! ## Driver state and `reinit` (`driver_ins1000.py`, lines 65-76) -/

/-- The driver state touched by `reinit`: transport open flag, the
shared byte queue, the cooperative-cancellation flag `exit_thread`, the
worker-thread list, whether an application callback is attached, the
message cache `msgs`, and the connection status. -/
structure RoverState where
  cmt_open : Bool
  data_queue : List Nat
  exit_thread : Bool
  threads : List String
  app : Bool
  msgs : List (String × Packet)
  connection_status : Nat
deriving DecidableEq

/-- `reinit` (lines 65-76): close the transport; `if not empty: get()`
removes a single queued byte; reset `exit_thread` and the thread list;
invoke `on_reinit` when an application is attached; clear the message
cache; set status to 0.  The second component lists the callbacks
invoked. -/
def reinit (st : RoverState) : RoverState × List String :=
  let st1 := { st with cmt_open := false }
  let st2 := { st1 with data_queue :=
    if st1.data_queue.isEmpty then st1.data_queue else st1.data_queue.tail }
  let st3 := { st2 with exit_thread := false, threads := [] }
  let ev := if st3.app then ["on_reinit"] else []
  let st4 := { st3 with msgs := [] }
  ({ st4 with connection_status := 0 }, ev)

/-! ## Derived-packet synthesis (`packet_handler`,
`driver_ins1000.py` lines 635-772) -/

/-- `self.nav_pos_vel_mode` (line 55). -/
def nav_pos_vel_mode (z : Int) : Option String :=
  if z = 0 then some "INVALID"
  else if z = 1 then some "DEAD_RECKON"
  else if z = 2 then some "STAND_ALONE"
  else if z = 3 then some "PRECISE_POINT_POSITIONING"
  else if z = 4 then some "CODE_DIFF"
  else if z = 5 then some "RTK_FLOAT"
  else if z = 6 then some "RTK_FIXED"
  else if z = 7 then some "USER_AIDING"
  else none

/-- `self.nav_att_mode` (line 56). -/
def nav_att_mode (z : Int) : Option String :=
  if z = 0 then some "INVALID"
  else if z = 1 then some "COARSE"
  else if z = 2 then some "FINE"
  else none

/-- The mathematical primitives `packet_handler` borrows from outside
the provided sources: `math.sqrt`, `utility.cal_attitude`
(quaternion to Euler angles) and the float constant `180/math.pi`.
They are kept abstract; theorems quantify over them. -/
structure MathPrims where
  sqrtFn : ℚ → ℚ
  calAtt : ℚ → ℚ → ℚ → ℚ → ℚ × ℚ × ℚ
  r2d : ℚ

/-- Numeric field lookup: `d[k]` as a rational. -/
def ratField (p : Packet) (k : String) : Option ℚ := (aget p k).bind pvalRat

/-- The `NAV` packet construction of lines 688-723, given the cached
`KFN`, `CNM` and `GH` packets.  Every lookup failure in the source is a
raised `KeyError`, so the grouping of lookups below is observationally
the same as the source's sequential order: the result is `none` exactly
when any lookup or mode-table access fails. -/
def buildNav (pr : MathPrims) (kfn cnm gh : Packet) : Option Packet :=
  match ["Position RMS-N", "Position RMS-E", "Position RMS-D",
         "Velocity RMS-N", "Velocity RMS-E", "Velocity RMS-D",
         "Attitude RMS-N", "Attitude RMS-E", "Attitude RMS-D",
         "Attitude quaternion-Scalar", "Attitude quaternion-X",
         "Attitude quaternion-Y", "Attitude quaternion-Z"].mapM (ratField cnm) with
  | some [pos_rms_n, pos_rms_e, pos_rms_d, vel_rms_n, vel_rms_e, vel_rms_d,
          att_rms_n, att_rms_e, att_rms_d, q0, q1, q2, q3] =>
    match ["Time of week", "GPS week", "Latitude", "Longitude",
           "Ellipsoidal height", "Vel N", "Vel E", "Vel D"].mapM (aget cnm) with
    | some [tow, gw, lat, lon, eh, vn, ve, vd] =>
      match (aget kfn "System time").bind pvalInt, pvalRat eh,
            ratField gh "Geoid height" with
      | some sysTime, some ehr, some ghr =>
        match ((aget kfn "Position mode").bind modeKey).bind nav_pos_vel_mode,
              ((aget kfn "Velocity mode").bind modeKey).bind nav_pos_vel_mode,
              ((aget kfn "Attitude status").bind modeKey).bind nav_att_mode with
        | some pmName, some vmName, some atName =>
          let euler := pr.calAtt q0 q1 q2 q3
          some [("System time", .i sysTime), ("Time of week", tow), ("GPS week", gw),
                ("Position mode", .s pmName), ("Latitude", lat), ("Longitude", lon),
                ("Ellipsoidal height", eh), ("MSL height", .q (ehr - ghr)),
                ("Position RMS",
                  .q (pr.sqrtFn (pos_rms_n ^ 2 + pos_rms_e ^ 2 + pos_rms_d ^ 2))),
                ("Velocity mode", .s vmName), ("Vel N", vn), ("Vel E", ve), ("Vel D", vd),
                ("Velocity RMS",
                  .q (pr.sqrtFn (vel_rms_n ^ 2 + vel_rms_e ^ 2 + vel_rms_d ^ 2))),
                ("Attitude status", .s atName),
                ("Roll", .q (euler.1 * pr.r2d)), ("Pitch", .q (euler.2.1 * pr.r2d)),
                ("Heading", .q (euler.2.2 * pr.r2d)),
                ("Attitude RMS",
                  .q (pr.sqrtFn (att_rms_n ^ 2 + att_rms_e ^ 2 + att_rms_d ^ 2)))]
        | _, _, _ => none
      | _, _, _ => none
    | _ => none
  | _ => none

/-- Result of one `packet_handler` call: the updated message cache, the
web-client pushes (message type, packet type, packet) in order, the
`on_message` callbacks that an attached application would receive, and
whether the call raised (`KeyError`/`TypeError`). -/
structure PHResult where
  msgs : List (String × Packet)
  pushes : List (String × String × Packet)
  on_msgs : List (String × Packet)
  fault : Bool
deriving DecidableEq

/-- `packet_handler` (lines 635-772): cache the packet under its name
when it is one of KFN/CNM/GH/SA/NCA; mark ProductID/EngineVersion as
query responses (coercing `Product ID` to a string); push the packet to
every web client; then synthesize `NAV` when the handled packet is a
`CNM` and KFN, CNM and GH are all cached, or `SS` on an SA or NCA
packet. -/
def packet_handler (pr : MathPrims) (msgs : List (String × Packet))
    (packet_type : String) (packet : Packet) : PHResult :=
  let cacheStep : String × Packet × List (String × Packet) × Bool :=
    if packet_type = "KFN" ∨ packet_type = "CNM" ∨ packet_type = "GH" ∨
       packet_type = "SA" ∨ packet_type = "NCA" then
      ("event", packet, aset msgs packet_type packet, false)
    else if packet_type = "ProductID" then
      match aget packet "Product ID" with
      | some (.s _) => ("queryResponse", packet, msgs, false)
      | some v => ("queryResponse", aset packet "Product ID" (.s (pvalStr v)), msgs, false)
      | none => ("queryResponse", packet, msgs, true)
    else if packet_type = "EngineVersion" then ("queryResponse", packet, msgs, false)
    else ("event", packet, msgs, false)
  let msg_type := cacheStep.1
  let packet1 := cacheStep.2.1
  let cached := cacheStep.2.2.1
  if cacheStep.2.2.2 then ⟨cached, [], [], true⟩
  else
    let pushes0 := [(msg_type, packet_type, packet1)]
    match aget cached "KFN", aget cached "CNM", aget cached "GH" with
    | some kfn, some cnm, some gh =>
      if packet_type = "CNM" then
        match buildNav pr kfn cnm gh with
        | some nav =>
          ⟨cached, pushes0 ++ [("event", "NAV", nav)], [("NAV", nav)], false⟩
        | none => ⟨cached, pushes0, [], true⟩
      else if packet_type = "SA" then ssFromSA cached pushes0 packet
      else if packet_type = "NCA" then ssFromNCA cached pushes0 packet
      else ⟨cached, pushes0, [], false⟩
    | _, _, _ =>
      if packet_type = "SA" then ssFromSA cached pushes0 packet
      else if packet_type = "NCA" then ssFromNCA cached pushes0 packet
      else ⟨cached, pushes0, [], false⟩
where
  /-- The SA-triggered `SS` synthesis of lines 741-755. -/
  ssFromSA (cached : List (String × Packet))
      (pushes0 : List (String × String × Packet)) (packet : Packet) : PHResult :=
    match (aget packet "IMU message count").bind pvalRat,
          (aget packet "GNSS message count").bind pvalRat,
          (aget packet "PPS count").bind pvalRat with
    | some imu, some gnss, some pps =>
      let data : Packet :=
        [("IMU Status", .i (if 0 < imu then 1 else 0)),
         ("GNSS Status", .i (if 0 < gnss then 1 else 0)),
         ("PPS Status", .i (if 0 < pps then 1 else 0)),
         ("NTRIP Status", .i 0)]
      ⟨aset cached "SS" data, pushes0 ++ [("event", "SS", data)], [("SS", data)], false⟩
    | _, _, _ => ⟨cached, pushes0, [], true⟩
  /-- The NCA-triggered `SS` synthesis of lines 756-770. -/
  ssFromNCA (cached : List (String × Packet))
      (pushes0 : List (String × String × Packet)) (packet : Packet) : PHResult :=
    match (aget packet "NTRIP message size").bind pvalRat with
    | some sz =>
      let data : Packet :=
        [("IMU Status", .i 0), ("GNSS Status", .i 0), ("PPS Status", .i 0),
         ("NTRIP Status", .i (if 0 < sz then 1 else 0))]
      ⟨aset cached "SS" data, pushes0 ++ [("event", "SS", data)], [("SS", data)], false⟩
    | _ => ⟨cached, pushes0, [], true⟩

/-- Spec-modelled: `math.sqrt` is outside the provided sources.  Exact
nonnegative rational square root where one exists (enough to evaluate
the spec's 3-4-5 example), zero elsewhere; used only to instantiate the
abstract `sqrtFn` in concrete witnesses. -/
def ratSqrt_model (q : ℚ) : ℚ :=
  if q < 0 then 0
  else
    let sn := Nat.sqrt q.num.toNat
    let sd := Nat.sqrt q.den
    if sn * sn = q.num.toNat ∧ sd * sd = q.den then (sn : ℚ) / (sd : ℚ) else 0

/-- Spec-modelled: `utility.cal_attitude` is outside the provided
sources.  This witness-only instance returns the zero Euler triple (the
exact value for the identity quaternion); the theorems never constrain
the Euler outputs. -/
def calAtt_model (_q0 _q1 _q2 _q3 : ℚ) : ℚ × ℚ × ℚ := (0, 0, 0)

/-- Spec-modelled primitive bundle used by concrete witnesses (the
`r2d` component stands in for the float `180/math.pi`). -/
def prims_model : MathPrims := ⟨ratSqrt_model, calAtt_model, 57⟩

/-! ## CSV logging (`file_storage.py`, `RoverLogApp.log`, lines 75-142) -/

/-- Floor of a rational, computably. -/
def ratFloor (q : ℚ) : Int := q.num.fdiv q.den

/-- Decimal digit characters of `n`, left-padded with zeros to at least
`len` characters. -/
def digitsPad (n : Nat) (len : Nat) : List Char :=
  let ds := (toString n).data
  if ds.length < len then List.replicate (len - ds.length) '0' ++ ds else ds

/-- Fixed-point rendering with `frac` fractional digits, left-padded
with spaces to `width` characters, modelling the format specifications
of lines 119-138 (rounding to nearest, half up). -/
def fmtFixed (width frac : Nat) (q : ℚ) : List Char :=
  let sc : Int := ratFloor (q * (10 ^ frac : ℚ) + 1 / 2)
  let ds := digitsPad sc.natAbs (frac + 1)
  let base := (if sc < 0 then ['-'] else []) ++
    ds.take (ds.length - frac) ++ '.' :: ds.drop (ds.length - frac)
  if base.length < width then List.replicate (width - base.length) ' ' ++ base else base

/-- The per-type format ladder of lines 119-138: integer types and
`uint8` as plain decimal, `double` as width 15 with 12 fractional
digits, `float` as width 12 with 8 fractional digits, `char`/`uchar`
via `str`, anything else as width 3 with 5 fractional digits.  `none`
models the `ValueError` Python's numeric formats raise on a
non-numeric value. -/
def fmtField (t : FieldType) (v : PVal) : Option (List Char) :=
  match t with
  | .uint32 | .int32 | .uint16 | .int16 | .uint64 | .int64 =>
    match v with
    | .i z => some (toString z).data
    | _ => none
  | .double => (pvalRat v).map (fmtFixed 15 12)
  | .float => (pvalRat v).map (fmtFixed 12 8)
  | .uint8 =>
    match v with
    | .i z => some (toString z).data
    | _ => none
  | .char | .uchar => some (pvalStr v).data
  | .string => (pvalRat v).map (fmtFixed 3 5)

/-- The header-label loop of lines 92-101: one catalog field name per
data key, by position; `none` models the `IndexError` when the data has
more keys than the catalog entry has fields. -/
def buildLabels (entry : List PField) : Nat → List (String × PVal) → Option (List (List Char))
  | _, [] => some []
  | idx, _ :: rest =>
    match entry[idx]? with
    | none => none
    | some f => (buildLabels entry (idx + 1) rest).map (f.name.data :: ·)

/-- The data-formatting loop of lines 113-138: format each data value by
the catalog type at its position. -/
def buildRow (entry : List PField) : Nat → List (String × PVal) → Option (List (List Char))
  | _, [] => some []
  | idx, kv :: rest =>
    match entry[idx]? with
    | none => none
    | some f =>
      match fmtField f.type kv.2 with
      | none => none
      | some cell => (buildRow entry (idx + 1) rest).map (cell :: ·)

/-- Concatenation with a trailing comma after every cell, the
accumulation pattern `acc += cell + ','` of lines 101 and 123-138. -/
def commaJoin (l : List (List Char)) : List Char := (l.map (· ++ [','])).flatten

/-- Spec-side rendering of "comma-joined with no trailing comma",
written from the spec's words for comparison with the source's
accumulate-then-strip `commaJoin`/`dropLast` pattern. -/
def commaJoinSpec : List (List Char) → List Char
  | [] => []
  | [x] => x
  | x :: y :: rest => x ++ ',' :: commaJoinSpec (y :: rest)

/-- One `log` call (lines 75-142) for a fixed-shape packet: `first_row`
is the per-type counter (0 means the header has not been written); the
result is the text written to the packet's file and the updated
counter.  Header and data line are both built by accumulating
`cell + ','`, stripping the final comma and appending a newline; the
header is produced only on the first call. -/
def log (entry : List PField) (data : List (String × PVal)) (first_row : Nat) :
    Option (List Char × Nat) :=
  if first_row = 0 then
    match buildLabels entry 0 data, buildRow entry 0 data with
    | some names, some cells =>
      some (((commaJoin names).dropLast ++ ['\n']) ++
            ((commaJoin cells).dropLast ++ ['\n']), 1)
    | _, _ => none
  else
    match buildRow entry 0 data with
    | some cells => some ((commaJoin cells).dropLast ++ ['\n'], first_row + 1)
    | none => none

/-! ## Concrete test fixtures (used only by witnesses and
counterexamples) -/

/-- An all-zero user-configuration state, the baseline for concrete
test states. -/
def msgZero : Msg060C :=
  ⟨0, 0, 0, 0, 0, 0, 0, [], [], 0, [], [], [], [], [], 0, 0, [], 0, 0,
   false, 0, 0, true, true⟩

/-- Sample `KFN` packet from the spec's NAV example. -/
def kfnSample : Packet :=
  [("System time", .q 100), ("Position mode", .i 2),
   ("Velocity mode", .i 2), ("Attitude status", .i 2)]

/-- Sample `GH` packet from the spec's NAV example. -/
def ghSample : Packet := [("Geoid height", .q 10)]

/-- Sample `CNM` packet from the spec's NAV example (3-4-5 position RMS
triangle, identity quaternion, ellipsoidal height 110). -/
def cnmSample : Packet :=
  [("Time of week", .q 5), ("GPS week", .i 2000),
   ("Latitude", .q 1), ("Longitude", .q 2), ("Ellipsoidal height", .q 110),
   ("Vel N", .q 0), ("Vel E", .q 0), ("Vel D", .q 0),
   ("Position RMS-N", .q (3 / 10)), ("Position RMS-E", .q (2 / 5)),
   ("Position RMS-D", .q 0),
   ("Velocity RMS-N", .q 0), ("Velocity RMS-E", .q 0), ("Velocity RMS-D", .q 0),
   ("Attitude RMS-N", .q 0), ("Attitude RMS-E", .q 0), ("Attitude RMS-D", .q 0),
   ("Attitude quaternion-Scalar", .q 1), ("Attitude quaternion-X", .q 0),
   ("Attitude quaternion-Y", .q 0), ("Attitude quaternion-Z", .q 0)]

/-- A minimal state `pack_msg_060D` serializes successfully: zero
antennas, no extended block, no ICD entries, no DMI block, an
all-zero-bit rotation matrix and zero offsets. -/
def msgPackSample : Msg060C :=
  { msgZero with
      topic := 10
      imu_rotation_matrix := List.replicate 9 0
      output_position_offset := [0, 0, 0] }

/-- A one-antenna state with both lever-arm representations and the
internal lever arm known, satisfying the consistency invariant
(10 = 7 + 3 component-wise). -/
def msgInvSample : Msg060C :=
  { msgZero with
      antenna_num := 1
      GNSS_lever_arm_center := [[10, 10, 10]]
      GNSS_lever_arm_housing_mark := [[7, 7, 7]]
      internal_lever_arm := [3, 3, 3] }

/-! # Theorems -/

/-- C6 (amended): `reinit` closes the transport, removes at most one
buffered byte (the queue is left empty exactly when at most one byte
was buffered), clears the cooperative-cancellation flag and the thread
list, invokes `on_reinit` when an application is attached, clears the
message cache, and sets the connection status to 0. -/
theorem reinit_resets_driver_state (st : RoverState) :
    reinit st =
      ({ cmt_open := false, data_queue := st.data_queue.tail, exit_thread := false,
         threads := [], app := st.app, msgs := [], connection_status := 0 },
       if st.app then ["on_reinit"] else []) ∧
    ((reinit st).1.data_queue = [] ↔ st.data_queue.length ≤ 1) := by
  have hq : (if st.data_queue.isEmpty then st.data_queue else st.data_queue.tail) =
      st.data_queue.tail := by
    cases st.data_queue <;> simp
  constructor
  · unfold reinit
    simp only [hq]
  · unfold reinit
    simp only [hq]
    match st.data_queue with
    | [] => simp
    | [a] => simp
    | a :: b :: t => simp

/-- C6 counterexample: with two bytes buffered, `reinit` leaves one of
them in the queue, so the queue is not empty (the claim says every
already-buffered byte is dropped). -/
theorem reinit_keeps_second_byte :
    (reinit ⟨true, [1, 2], true, [], true, [], 1⟩).1.data_queue = [2] ∧
    (reinit ⟨true, [1, 2], true, [], true, [], 1⟩).1.data_queue ≠ [] := by
  constructor <;> decide

/-- C10: with an empty stored housing-mark list the housing-mark getter
returns the empty list without faulting, even for a positive antenna
count; the center getter has no such guard and in the analogous state
faults with an out-of-range index access. -/
theorem lever_arm_getter_guard_asymmetry :
    (∀ m : Msg060C, m.GNSS_lever_arm_housing_mark = [] →
      get_GNSS_lever_arm_housing_mark m = ([], none)) ∧
    (∀ m : Msg060C, m.GNSS_lever_arm_center = [] → 0 < m.antenna_num →
      (get_GNSS_lever_arm_center m).2 = some PyFault.indexError) := by
  constructor
  · intro m h
    simp [get_GNSS_lever_arm_housing_mark, h]
  · intro m h ha
    unfold get_GNSS_lever_arm_center
    rw [h]
    match hn : m.antenna_num, ha with
    | k + 1, _ => simp [gatherScaled]

/-- C10 witness: the getter asymmetry evaluated at a concrete state with
one antenna and no decoded lever arms. -/
theorem lever_arm_getter_guard_asymmetry_witness :
    (({ msgZero with antenna_num := 1 } : Msg060C).GNSS_lever_arm_housing_mark = [] ∧
     ({ msgZero with antenna_num := 1 } : Msg060C).GNSS_lever_arm_center = [] ∧
     0 < ({ msgZero with antenna_num := 1 } : Msg060C).antenna_num) ∧
    get_GNSS_lever_arm_housing_mark { msgZero with antenna_num := 1 } = ([], none) ∧
    (get_GNSS_lever_arm_center { msgZero with antenna_num := 1 }).2 =
      some PyFault.indexError :=
  ⟨by decide,
   lever_arm_getter_guard_asymmetry.1 { msgZero with antenna_num := 1 } rfl,
   lever_arm_getter_guard_asymmetry.2 { msgZero with antenna_num := 1 } rfl (by decide)⟩

/-! ## Lever-arm setter lemmas (C4, C5) -/

theorem getD_eq_of_getElem? {α : Type} {l : List α} {n : Nat} {a d : α}
    (h : l[n]? = some a) : l.getD n d = a := by
  simp [List.getD_eq_getElem?_getD, h]

theorem backfillAux_step_oob {f : Int → Int → Int} {src : List (List Int)}
    {iv : List Int} {an k : Nat} (hsrc : src[an]? = none) :
    backfillAux f src iv an (k + 1) = ([], some PyFault.indexError) := by
  simp [backfillAux, hsrc]

theorem backfillAux_step_bad {f : Int → Int → Int} {src : List (List Int)}
    {iv : List Int} {an k : Nat} {c : List Int} (hsrc : src[an]? = some c)
    (hc : combine3 f c iv = none) :
    backfillAux f src iv an (k + 1) = ([], some PyFault.indexError) := by
  simp [backfillAux, hsrc, hc]

theorem backfillAux_step_ok {f : Int → Int → Int} {src : List (List Int)}
    {iv : List Int} {an k : Nat} {c e : List Int} (hsrc : src[an]? = some c)
    (hc : combine3 f c iv = some e) :
    backfillAux f src iv an (k + 1) =
      (e :: (backfillAux f src iv (an + 1) k).1, (backfillAux f src iv (an + 1) k).2) := by
  simp [backfillAux, hsrc, hc]

/-- The back-fill loop only ever raises `IndexError`. -/
theorem backfillAux_fault_cases (f : Int → Int → Int) (src : List (List Int))
    (iv : List Int) (an cnt : Nat) :
    (backfillAux f src iv an cnt).2 = none ∨
    (backfillAux f src iv an cnt).2 = some PyFault.indexError := by
  induction cnt generalizing an with
  | zero => left; rfl
  | succ k ih =>
    cases hsrc : src[an]? with
    | none => rw [backfillAux_step_oob hsrc]; right; rfl
    | some c =>
      cases hc : combine3 f c iv with
      | none => rw [backfillAux_step_bad hsrc hc]; right; rfl
      | some e => rw [backfillAux_step_ok hsrc hc]; exact ih (an + 1)

/-- Successful back-fill: one derived entry per antenna, each obtained
from `combine3` on the source entry at the shifted index. -/
theorem backfillAux_none_spec (f : Int → Int → Int) (src : List (List Int))
    (iv : List Int) (an cnt : Nat)
    (h : (backfillAux f src iv an cnt).2 = none) :
    (backfillAux f src iv an cnt).1.length = cnt ∧
    ∀ j, j < cnt → ∃ c e, src[an + j]? = some c ∧ combine3 f c iv = some e ∧
      (backfillAux f src iv an cnt).1[j]? = some e := by
  induction cnt generalizing an with
  | zero => exact ⟨rfl, fun j hj => absurd hj (by omega)⟩
  | succ k ih =>
    cases hsrc : src[an]? with
    | none => rw [backfillAux_step_oob hsrc] at h; simp at h
    | some c =>
      cases hc : combine3 f c iv with
      | none => rw [backfillAux_step_bad hsrc hc] at h; simp at h
      | some e =>
        rw [backfillAux_step_ok hsrc hc] at h ⊢
        obtain ⟨hlen, hspec⟩ := ih (an + 1) h
        refine ⟨by simp [hlen], ?_⟩
        intro j hj
        match j with
        | 0 => exact ⟨c, e, by simpa using hsrc, hc, by simp⟩
        | j + 1 =>
          obtain ⟨c2, e2, h1, h2, h3⟩ := hspec j (by omega)
          refine ⟨c2, e2, ?_, h2, by simpa using h3⟩
          have harith : an + (j + 1) = an + 1 + j := by omega
          rw [harith]; exact h1

/-- Unpacking a successful `combine3`: the first three components of
both lists exist and the result is their pointwise combination. -/
theorem combine3_some_spec {f : Int → Int → Int} {u iv e : List Int}
    (h : combine3 f u iv = some e) :
    ∃ c0 c1 c2 i0 i1 i2, u[0]? = some c0 ∧ u[1]? = some c1 ∧ u[2]? = some c2 ∧
      iv[0]? = some i0 ∧ iv[1]? = some i1 ∧ iv[2]? = some i2 ∧
      e = [f c0 i0, f c1 i1, f c2 i2] := by
  unfold combine3 at h
  split at h
  · next c0 c1 c2 i0 i1 i2 h0 h1 h2 h3 h4 h5 =>
      exact ⟨c0, c1, c2, i0, i1, i2, h0, h1, h2, h3, h4, h5, by simpa using h.symm⟩
  · next => simp at h

/-- Exhaustive case analysis of `set_GNSS_lever_arm_center`. -/
theorem set_center_cases (m : Msg060C) (la : List (List ℚ)) :
    (la.length ≠ m.antenna_num ∧
      set_GNSS_lever_arm_center m la = (m, some PyFault.invalidInput)) ∨
    (la.length = m.antenna_num ∧ la = [] ∧
      set_GNSS_lever_arm_center m la = (m, some PyFault.indexError)) ∨
    (la.length = m.antenna_num ∧ la ≠ [] ∧ (la.head?.getD []).length ≠ 3 ∧
      set_GNSS_lever_arm_center m la = (m, some PyFault.invalidInput)) ∨
    (la.length = m.antenna_num ∧ la ≠ [] ∧ (la.head?.getD []).length = 3 ∧
      set_GNSS_lever_arm_center m la =
        ({ m with
            GNSS_lever_arm_center := la.map (List.map toRawLever),
            GNSS_lever_arm_housing_mark :=
              (backfillAux (· - ·) (la.map (List.map toRawLever))
                m.internal_lever_arm 0 m.antenna_num).1 },
         (backfillAux (· - ·) (la.map (List.map toRawLever))
            m.internal_lever_arm 0 m.antenna_num).2)) := by
  by_cases hlen : la.length = m.antenna_num
  · cases la with
    | nil =>
      right; left
      exact ⟨hlen, rfl, by simp [set_GNSS_lever_arm_center, hlen]⟩
    | cons first rest =>
      by_cases h3 : first.length = 3
      · right; right; right
        refine ⟨hlen, by simp, by simpa using h3, ?_⟩
        simp [set_GNSS_lever_arm_center, hlen, h3]
      · right; right; left
        refine ⟨hlen, by simp, by simpa using h3, ?_⟩
        simp [set_GNSS_lever_arm_center, hlen, h3]
  · left
    exact ⟨hlen, by simp [set_GNSS_lever_arm_center, hlen]⟩

/-- Exhaustive case analysis of `set_GNSS_lever_arm_housing_mark`. -/
theorem set_housing_cases (m : Msg060C) (la : List (List ℚ)) :
    (la.length ≠ m.antenna_num ∧
      set_GNSS_lever_arm_housing_mark m la = (m, some PyFault.invalidInput)) ∨
    (la.length = m.antenna_num ∧ la = [] ∧
      set_GNSS_lever_arm_housing_mark m la = (m, some PyFault.indexError)) ∨
    (la.length = m.antenna_num ∧ la ≠ [] ∧ (la.head?.getD []).length ≠ 3 ∧
      set_GNSS_lever_arm_housing_mark m la = (m, some PyFault.invalidInput)) ∨
    (la.length = m.antenna_num ∧ la ≠ [] ∧ (la.head?.getD []).length = 3 ∧
      set_GNSS_lever_arm_housing_mark m la =
        ({ m with
            GNSS_lever_arm_housing_mark := la.map (List.map toRawLever),
            GNSS_lever_arm_center :=
              (backfillAux (· + ·) (la.map (List.map toRawLever))
                m.internal_lever_arm 0 m.antenna_num).1 },
         (backfillAux (· + ·) (la.map (List.map toRawLever))
            m.internal_lever_arm 0 m.antenna_num).2)) := by
  by_cases hlen : la.length = m.antenna_num
  · cases la with
    | nil =>
      right; left
      exact ⟨hlen, rfl, by simp [set_GNSS_lever_arm_housing_mark, hlen]⟩
    | cons first rest =>
      by_cases h3 : first.length = 3
      · right; right; right
        refine ⟨hlen, by simp, by simpa using h3, ?_⟩
        simp [set_GNSS_lever_arm_housing_mark, hlen, h3]
      · right; right; left
        refine ⟨hlen, by simp, by simpa using h3, ?_⟩
        simp [set_GNSS_lever_arm_housing_mark, hlen, h3]
  · left
    exact ⟨hlen, by simp [set_GNSS_lever_arm_housing_mark, hlen]⟩

/-- C4 (amended): `set_imu_rotation_matrix` raises the invalid-input
fault exactly when the matrix does not have 9 elements and never
mutates state on failure.  The lever-arm setters raise the
invalid-input fault exactly when the list length differs from
`antenna_num` or the list is nonempty with a first entry not of 3
components — entries beyond the first are not shape-validated (an
empty list passing the length check faults with an index error
instead) — and in every invalid-input case the state is unchanged. -/
theorem setter_invalid_input_characterization :
    (∀ (m : Msg060C) (mat : List Nat),
      ((set_imu_rotation_matrix m mat).2 = some PyFault.invalidInput ↔ mat.length ≠ 9) ∧
      ((set_imu_rotation_matrix m mat).2 ≠ none → (set_imu_rotation_matrix m mat).1 = m)) ∧
    (∀ (m : Msg060C) (la : List (List ℚ)),
      ((set_GNSS_lever_arm_center m la).2 = some PyFault.invalidInput ↔
        (la.length ≠ m.antenna_num ∨ (la ≠ [] ∧ (la.head?.getD []).length ≠ 3))) ∧
      ((set_GNSS_lever_arm_center m la).2 = some PyFault.invalidInput →
        (set_GNSS_lever_arm_center m la).1 = m)) ∧
    (∀ (m : Msg060C) (la : List (List ℚ)),
      ((set_GNSS_lever_arm_housing_mark m la).2 = some PyFault.invalidInput ↔
        (la.length ≠ m.antenna_num ∨ (la ≠ [] ∧ (la.head?.getD []).length ≠ 3))) ∧
      ((set_GNSS_lever_arm_housing_mark m la).2 = some PyFault.invalidInput →
        (set_GNSS_lever_arm_housing_mark m la).1 = m)) := by
  refine ⟨?_, ?_, ?_⟩
  · intro m mat
    unfold set_imu_rotation_matrix
    by_cases h : mat.length = 9 <;> simp [h]
  · intro m la
    rcases set_center_cases m la with ⟨h1, heq⟩ | ⟨h1, h2, heq⟩ |
      ⟨h1, h2, h3, heq⟩ | ⟨h1, h2, h3, heq⟩
    · rw [heq]; simp [h1]
    · subst h2; rw [heq]; simp; simpa using h1
    · rw [heq]; simp [h1, h2, h3]
    · rw [heq]
      rcases backfillAux_fault_cases (· - ·) (la.map (List.map toRawLever))
        m.internal_lever_arm 0 m.antenna_num with hf | hf <;>
        simp [hf, h1, h2, h3]
  · intro m la
    rcases set_housing_cases m la with ⟨h1, heq⟩ | ⟨h1, h2, heq⟩ |
      ⟨h1, h2, h3, heq⟩ | ⟨h1, h2, h3, heq⟩
    · rw [heq]; simp [h1]
    · subst h2; rw [heq]; simp; simpa using h1
    · rw [heq]; simp [h1, h2, h3]
    · rw [heq]
      rcases backfillAux_fault_cases (· + ·) (la.map (List.map toRawLever))
        m.internal_lever_arm 0 m.antenna_num with hf | hf <;>
        simp [hf, h1, h2, h3]

/-- C4 counterexample: with two antennas, a lever-arm list whose second
entry has only two components is not rejected with the invalid-input
fault (the claim requires it); the call faults later with an index
error, after the stored center representation has already been
overwritten. -/
theorem setter_validation_gap :
    (set_GNSS_lever_arm_center
        { msgZero with antenna_num := 2, internal_lever_arm := [0, 0, 0] }
        [[1, 2, 3], [4, 5]]).2 ≠ some PyFault.invalidInput ∧
    (set_GNSS_lever_arm_center
        { msgZero with antenna_num := 2, internal_lever_arm := [0, 0, 0] }
        [[1, 2, 3], [4, 5]]).2 = some PyFault.indexError ∧
    (set_GNSS_lever_arm_center
        { msgZero with antenna_num := 2, internal_lever_arm := [0, 0, 0] }
        [[1, 2, 3], [4, 5]]).1.GNSS_lever_arm_center ≠
      ({ msgZero with antenna_num := 2, internal_lever_arm := [0, 0, 0] } :
        Msg060C).GNSS_lever_arm_center := by
  refine ⟨?_, ?_, ?_⟩ <;> decide

/-- C4 witness: the characterization applied to an 8-element rotation
matrix (rejected, state unchanged) and to a well-shaped one-antenna
lever-arm list (not an invalid-input fault). -/
theorem setter_invalid_input_characterization_witness :
    ((set_imu_rotation_matrix msgZero [1, 2, 3, 4, 5, 6, 7, 8]).2 =
        some PyFault.invalidInput ∧
      (set_imu_rotation_matrix msgZero [1, 2, 3, 4, 5, 6, 7, 8]).1 = msgZero) ∧
    ¬ (set_GNSS_lever_arm_center
        { msgZero with antenna_num := 1, internal_lever_arm := [0, 0, 0] }
        [[1, 2, 3]]).2 = some PyFault.invalidInput :=
  ⟨⟨((setter_invalid_input_characterization.1 msgZero
        [1, 2, 3, 4, 5, 6, 7, 8]).1).mpr (by decide),
    (setter_invalid_input_characterization.1 msgZero
        [1, 2, 3, 4, 5, 6, 7, 8]).2 (by decide)⟩,
   fun h => by
    have := ((setter_invalid_input_characterization.2.1
        { msgZero with antenna_num := 1, internal_lever_arm := [0, 0, 0] }
        [[1, 2, 3]]).1).mp h
    revert this
    decide⟩

/-- C5 (amended): the two lever-arm setters establish the invariant
`center[a] = housing_mark[a] + internal_lever_arm` whenever they
succeed; `update_GNSS_lever_arm_by_internal_lever_arm` *appends*
back-filled entries rather than rewriting, so it preserves the
invariant on the `antenna_num` stored entries only when the call does
not change the stored internal lever arm (with a changed internal
value the invariant is broken, see the counterexample). -/
theorem lever_arm_invariant_behavior :
    (∀ (m : Msg060C) (la : List (List ℚ)),
      (set_GNSS_lever_arm_center m la).2 = none →
      LeverArmInv (set_GNSS_lever_arm_center m la).1) ∧
    (∀ (m : Msg060C) (la : List (List ℚ)),
      (set_GNSS_lever_arm_housing_mark m la).2 = none →
      LeverArmInv (set_GNSS_lever_arm_housing_mark m la).1) ∧
    (∀ (m : Msg060C) (p : List ℚ),
      LeverArmInv m →
      p.map toRawLever = m.internal_lever_arm →
      m.GNSS_lever_arm_center.length = m.antenna_num →
      m.GNSS_lever_arm_housing_mark.length = m.antenna_num →
      LeverArmInv (update_GNSS_lever_arm_by_internal_lever_arm m p).1) := by
  refine ⟨?_, ?_, ?_⟩
  · intro m la hnone
    rcases set_center_cases m la with ⟨h1, heq⟩ | ⟨h1, h2, heq⟩ |
      ⟨h1, h2, h3, heq⟩ | ⟨h1, h2, h3, heq⟩
    · rw [heq] at hnone; simp at hnone
    · rw [heq] at hnone; simp at hnone
    · rw [heq] at hnone; simp at hnone
    · rw [heq] at hnone ⊢
      obtain ⟨hlen, hspec⟩ := backfillAux_none_spec (· - ·)
        (la.map (List.map toRawLever)) m.internal_lever_arm 0 m.antenna_num hnone
      unfold LeverArmInv
      dsimp only
      intro a ha i hi
      obtain ⟨c, e, hsrc, hcomb, hget⟩ := hspec a ha
      obtain ⟨c0, c1, c2, j0, j1, j2, hc0, hc1, hc2, hj0, hj1, hj2, he⟩ :=
        combine3_some_spec hcomb
      rw [Nat.zero_add] at hsrc
      rw [getD_eq_of_getElem? hsrc, getD_eq_of_getElem? hget]
      subst he
      match i, hi with
      | 0, _ =>
        rw [getD_eq_of_getElem? hc0, getD_eq_of_getElem? hj0]; simp
      | 1, _ =>
        rw [getD_eq_of_getElem? hc1, getD_eq_of_getElem? hj1]; simp
      | 2, _ =>
        rw [getD_eq_of_getElem? hc2, getD_eq_of_getElem? hj2]; simp
  · intro m la hnone
    rcases set_housing_cases m la with ⟨h1, heq⟩ | ⟨h1, h2, heq⟩ |
      ⟨h1, h2, h3, heq⟩ | ⟨h1, h2, h3, heq⟩
    · rw [heq] at hnone; simp at hnone
    · rw [heq] at hnone; simp at hnone
    · rw [heq] at hnone; simp at hnone
    · rw [heq] at hnone ⊢
      obtain ⟨hlen, hspec⟩ := backfillAux_none_spec (· + ·)
        (la.map (List.map toRawLever)) m.internal_lever_arm 0 m.antenna_num hnone
      unfold LeverArmInv
      dsimp only
      intro a ha i hi
      obtain ⟨c, e, hsrc, hcomb, hget⟩ := hspec a ha
      obtain ⟨c0, c1, c2, j0, j1, j2, hc0, hc1, hc2, hj0, hj1, hj2, he⟩ :=
        combine3_some_spec hcomb
      rw [Nat.zero_add] at hsrc
      rw [getD_eq_of_getElem? hsrc, getD_eq_of_getElem? hget]
      subst he
      match i, hi with
      | 0, _ =>
        rw [getD_eq_of_getElem? hc0, getD_eq_of_getElem? hj0]; simp
      | 1, _ =>
        rw [getD_eq_of_getElem? hc1, getD_eq_of_getElem? hj1]; simp
      | 2, _ =>
        rw [getD_eq_of_getElem? hc2, getD_eq_of_getElem? hj2]; simp
  · intro m p hInv hint hclen hhlen
    simp only [update_GNSS_lever_arm_by_internal_lever_arm]
    rw [hint]
    by_cases hflag : m.flags_leverarm_from_imu_center = true
    · rw [if_pos hflag]
      unfold LeverArmInv
      dsimp only
      intro a ha i hi
      rw [List.getD_append _ _ _ a (by omega : a < m.GNSS_lever_arm_housing_mark.length)]
      exact hInv a ha i hi
    · rw [if_neg hflag]
      unfold LeverArmInv
      dsimp only
      intro a ha i hi
      rw [List.getD_append _ _ _ a (by omega : a < m.GNSS_lever_arm_center.length)]
      exact hInv a ha i hi

/-- C5 counterexample: in a state where both lever-arm representations
and the internal lever arm are known and the invariant holds, an
internal-lever-arm update with a different value appends a second
housing-mark entry and breaks the invariant for antenna 0
(center 10 against housing 7 + new internal 5). -/
theorem lever_arm_invariant_broken_by_update :
    LeverArmInv msgInvSample ∧
    ¬ LeverArmInv
      (update_GNSS_lever_arm_by_internal_lever_arm msgInvSample
        [1 / 2000, 1 / 2000, 1 / 2000]).1 := by
  have h5 : ((1 : ℚ) / 2000) / SCALING_LEVER_ARM = 5 := by
    rw [SCALING_LEVER_ARM]; norm_num
  have hnum : ((5 : ℚ)).num = 5 := by norm_num
  have hden : ((5 : ℚ)).den = 1 := by norm_num
  have ht : toRawLever (1 / 2000) = 5 := by
    rw [toRawLever, h5, pyInt, hnum, hden]; decide
  have hmap : ([1 / 2000, 1 / 2000, 1 / 2000] : List ℚ).map toRawLever = [5, 5, 5] := by
    simp only [List.map_cons, List.map_nil, ht]
  have hupd : (update_GNSS_lever_arm_by_internal_lever_arm msgInvSample
      [1 / 2000, 1 / 2000, 1 / 2000]).1 =
      { msgInvSample with
          internal_lever_arm := [5, 5, 5]
          GNSS_lever_arm_housing_mark := [[7, 7, 7], [5, 5, 5]] } := by
    simp only [update_GNSS_lever_arm_by_internal_lever_arm]
    rw [hmap]
    decide
  refine ⟨by decide, ?_⟩
  rw [hupd]
  decide

/-- C5 witness: a successful center setter call on a one-antenna state
establishes the invariant. -/
theorem lever_arm_invariant_behavior_witness :
    (set_GNSS_lever_arm_center
        { msgZero with antenna_num := 1, internal_lever_arm := [0, 0, 0] }
        [[1, 2, 3]]).2 = none ∧
    LeverArmInv (set_GNSS_lever_arm_center
        { msgZero with antenna_num := 1, internal_lever_arm := [0, 0, 0] }
        [[1, 2, 3]]).1 :=
  ⟨by decide,
   lever_arm_invariant_behavior.1
     { msgZero with antenna_num := 1, internal_lever_arm := [0, 0, 0] }
     [[1, 2, 3]] (by decide)⟩

/-! ## Parser lemmas (C1, C7) -/

theorem runParser_nil (cs : List Nat → Nat × Nat) (st : ParserState) :
    runParser cs st [] = (st, []) := rfl

theorem runParser_cons (cs : List Nat → Nat × Nat) (st : ParserState)
    (d : Nat) (rest : List Nat) :
    runParser cs st (d :: rest) =
      ((runParser cs (parserStep cs st d).1 rest).1,
       (parserStep cs st d).2.toList ++ (runParser cs (parserStep cs st d).1 rest).2) := rfl

theorem runParser_append (cs : List Nat → Nat × Nat) (st : ParserState)
    (xs ys : List Nat) :
    runParser cs st (xs ++ ys) =
      ((runParser cs (runParser cs st xs).1 ys).1,
       (runParser cs st xs).2 ++ (runParser cs (runParser cs st xs).1 ys).2) := by
  induction xs generalizing st with
  | nil => simp [runParser_nil]
  | cons d rest ih =>
    rw [List.cons_append, runParser_cons, runParser_cons, ih]
    simp

theorem append_singleton_ne {l : List Nat} {d a b c : Nat} (h : d ≠ c) :
    l ++ [d] ≠ [a, b, c] := by
  intro heq
  have h1 := congrArg List.getLast? heq
  rw [List.getLast?_concat] at h1
  simp at h1
  exact h h1

theorem headerMatch_ne_of_last {l : List Nat} {d : Nat}
    (h5 : d ≠ 5) (h6 : d ≠ 6) (h7 : d ≠ 7) : headerMatch (l ++ [d]) = none := by
  unfold headerMatch HEADER_05 HEADER_06 HEADER_07
  rw [if_neg (append_singleton_ne h5), if_neg (append_singleton_ne h6),
      if_neg (append_singleton_ne h7)]

/-- Header-search step, no match. -/
theorem step_search_nomatch (cs : List Nat → Nat × Nat) (st : ParserState) (d : Nat)
    (s2 : List Nat) (hf : st.find_header = false)
    (hshift : syncShift st.sync_pattern d = s2)
    (hm : headerMatch s2 = none) :
    parserStep cs st d = ({ st with sync_pattern := s2 }, none) := by
  simp [parserStep, hf, hshift, hm]

/-- Header-search step, match. -/
theorem step_search_match (cs : List Nat → Nat × Nat) (st : ParserState) (d : Nat)
    (s2 h : List Nat) (hf : st.find_header = false)
    (hshift : syncShift st.sync_pattern d = s2)
    (hm : headerMatch s2 = some h) :
    parserStep cs st d =
      ({ st with
          sync_pattern := s2
          frame := h
          find_header := true }, none) := by
  simp [parserStep, hf, hshift, hm]

/-- In-frame step away from the length-capture point, the completion
point and the size bound: the byte is appended and nothing else
changes. -/
theorem step_accum (cs : List Nat → Nat × Nat) (st : ParserState) (d : Nat)
    (hf : st.find_header = true)
    (hne6 : st.frame.length + 1 ≠ 6)
    (hne8 : st.frame.length + 1 ≠ 6 + st.payload_len + 2)
    (hpl : st.payload_len ≤ 500)
    (hlen : st.frame.length + 1 ≤ 500) :
    parserStep cs st d = ({ st with frame := st.frame ++ [d] }, none) := by
  simp [parserStep, hf, hne6, hne8,
    show ¬ 500 < st.payload_len by omega,
    show ¬ 500 < st.frame.length + 1 by omega]

/-- In-frame step that overruns the 500-byte bound away from the
completion point: the frame is abandoned without dispatch. -/
theorem step_overflow (cs : List Nat → Nat × Nat) (st : ParserState) (d : Nat)
    (hf : st.find_header = true)
    (hne6 : st.frame.length + 1 ≠ 6)
    (hne8 : st.frame.length + 1 ≠ 6 + st.payload_len + 2)
    (hlen : 500 < st.frame.length + 1) :
    parserStep cs st d =
      ({ st with frame := st.frame ++ [d], find_header := false, payload_len := 0 },
       none) := by
  simp [parserStep, hf, hne6, hne8, hlen]

/-- The length-capture step (frame reaches six bytes). -/
theorem step_capture (cs : List Nat → Nat × Nat) (st : ParserState) (d : Nat)
    (hf : st.find_header = true)
    (h6 : st.frame.length + 1 = 6) :
    parserStep cs st d =
      (if 500 < 256 * (st.frame ++ [d]).getD 5 0 + (st.frame ++ [d]).getD 4 0 then
        { st with frame := st.frame ++ [d], find_header := false, payload_len := 0 }
      else
        { st with
            frame := st.frame ++ [d]
            payload_len := 256 * (st.frame ++ [d]).getD 5 0 + (st.frame ++ [d]).getD 4 0 },
       none) := by
  have hlen6 : (st.frame ++ [d]).length = 6 := by simpa using h6
  by_cases hbig : 500 < 256 * (st.frame ++ [d]).getD 5 0 + (st.frame ++ [d]).getD 4 0
  · rw [if_pos hbig]
    unfold parserStep
    rw [if_pos hf]
    dsimp only
    rw [if_pos hlen6]
    dsimp only
    rw [hlen6, if_pos (Or.inl hbig)]
  · rw [if_neg hbig]
    unfold parserStep
    rw [if_pos hf]
    dsimp only
    rw [if_pos hlen6]
    dsimp only
    rw [hlen6, if_neg (by omega : ¬ (500 < 256 * (st.frame ++ [d]).getD 5 0 +
      (st.frame ++ [d]).getD 4 0 ∨ 500 < 6)), hf]

/-- The completion step (frame reaches 6 + payload_len + 2 bytes):
the checksum comparison decides dispatch, header search resumes, and
the size bound may additionally clear the payload length. -/
theorem step_complete (cs : List Nat → Nat × Nat) (st : ParserState) (d : Nat)
    (hf : st.find_header = true)
    (h8 : st.frame.length + 1 = 6 + st.payload_len + 2)
    (hpl : st.payload_len ≤ 500) :
    parserStep cs st d =
      ({ st with
          frame := st.frame ++ [d]
          find_header := false
          payload_len := if 500 < 8 + st.payload_len then 0 else st.payload_len },
       if checksumPass cs (st.frame ++ [d]) st.payload_len then some (st.frame ++ [d])
       else none) := by
  have hlen : (st.frame ++ [d]).length = 6 + st.payload_len + 2 := by simpa using h8
  have hne6 : ¬ (st.frame ++ [d]).length = 6 := by
    rw [hlen]; omega
  by_cases hbig : 500 < 8 + st.payload_len
  · rw [if_pos hbig]
    unfold parserStep
    rw [if_pos hf]
    dsimp only
    rw [if_neg hne6, if_pos hlen]
    dsimp only
    rw [hlen, if_pos (Or.inr (by omega : 500 < 6 + st.payload_len + 2))]
  · rw [if_neg hbig]
    unfold parserStep
    rw [if_pos hf]
    dsimp only
    rw [if_neg hne6, if_pos hlen]
    dsimp only
    rw [hlen, if_neg (by omega :
      ¬ (500 < st.payload_len ∨ 500 < 6 + st.payload_len + 2))]


/-- Processing the three bytes of a recognized class header from any
header-search state locks onto the frame: the sliding window and the
frame buffer hold the header and accumulation begins.  `payload_len`
is untouched. -/
theorem run_find_header (cs : List Nat → Nat × Nat) (st : ParserState)
    (a b c x : Nat) (hf : st.find_header = false)
    (hs : st.sync_pattern = [a, b, c]) (hx : x = 5 ∨ x = 6 ∨ x = 7) :
    runParser cs st [0xAF, 0x20, x] =
      ({ st with
          sync_pattern := [0xAF, 0x20, x]
          frame := [0xAF, 0x20, x]
          find_header := true }, []) := by
  have hsync1 : syncShift st.sync_pattern 0xAF = [b, c, 0xAF] := by rw [hs]; rfl
  have e1 := step_search_nomatch cs st 0xAF [b, c, 0xAF] hf hsync1
    (headerMatch_ne_of_last (l := [b, c]) (by omega) (by omega) (by omega))
  rw [runParser_cons, e1]
  dsimp only [Option.toList]
  have e2 := step_search_nomatch cs { st with sync_pattern := [b, c, 0xAF] } 0x20
    [c, 0xAF, 0x20] hf rfl
    (headerMatch_ne_of_last (l := [c, 0xAF]) (by omega) (by omega) (by omega))
  rw [runParser_cons, e2]
  dsimp only [Option.toList]
  have hm3 : headerMatch [0xAF, 0x20, x] = some [0xAF, 0x20, x] := by
    rcases hx with h | h | h <;> subst h <;> rfl
  have e3 := step_search_match cs
    { st with sync_pattern := [c, 0xAF, 0x20] } x [0xAF, 0x20, x] [0xAF, 0x20, x]
    hf rfl hm3
  rw [runParser_cons, e3]
  dsimp only [Option.toList]
  simp [runParser_nil]

/-- Accumulating bytes strictly inside a frame (no length capture, no
completion, no overflow) just extends the frame buffer, dispatching
nothing. -/
theorem run_accum (cs : List Nat → Nat × Nat) (bs : List Nat) :
    ∀ (st : ParserState), st.find_header = true → 6 ≤ st.frame.length →
    st.payload_len ≤ 500 → st.frame.length + bs.length ≤ 500 →
    st.frame.length + bs.length < 6 + st.payload_len + 2 →
    runParser cs st bs = ({ st with frame := st.frame ++ bs }, []) := by
  induction bs with
  | nil =>
    intro st hf h6 hpl hb hc
    simp [runParser_nil]
  | cons d rest ih =>
    intro st hf h6 hpl hb hc
    have hlr : (d :: rest).length = rest.length + 1 := by simp
    rw [hlr] at hb hc
    have e := step_accum cs st d hf (by omega) (by omega) hpl (by omega)
    rw [runParser_cons, e]
    dsimp only [Option.toList]
    rw [ih { st with frame := st.frame ++ [d] } hf (by simp; omega) hpl
      (by simp; omega) (by simp; omega)]
    simp


/-- The parser's completion-time checksum comparison, evaluated on a
well-shaped frame: it compares the two checksum components of the
payload with the two trailer bytes. -/
theorem checksumPass_eval (cs : List Nat → Nat × Nat)
    (h0 h1 h2 h3 h4 h5 u v : Nat) (payload : List Nat) :
    checksumPass cs ((([h0, h1, h2, h3, h4, h5] ++ payload) ++ [u]) ++ [v])
        payload.length =
      decide ((cs payload).1 = u ∧ (cs payload).2 = v) := by
  have hshape : ((([h0, h1, h2, h3, h4, h5] ++ payload) ++ [u]) ++ [v]) =
      [h0, h1, h2, h3, h4, h5] ++ (payload ++ [u, v]) := by simp
  unfold checksumPass
  rw [hshape]
  have hd : ([h0, h1, h2, h3, h4, h5] ++ (payload ++ [u, v])).drop 6 =
      payload ++ [u, v] := rfl
  have hlen : ([h0, h1, h2, h3, h4, h5] ++ (payload ++ [u, v])).length =
      payload.length + 8 := by simp
  have ht : (payload ++ [u, v]).take payload.length = payload := by
    simp
  have hg2 : ([h0, h1, h2, h3, h4, h5] ++ (payload ++ [u, v])).getD
      (payload.length + 8 - 2) 0 = u := by
    rw [show payload.length + 8 - 2 = 6 + payload.length by omega,
      List.getD_append_right _ _ _ _ (by simp),
      show 6 + payload.length - ([h0, h1, h2, h3, h4, h5] : List Nat).length =
        payload.length by simp,
      List.getD_append_right _ _ _ _ (by omega),
      show payload.length - payload.length = 0 by omega]
    rfl
  have hg1 : ([h0, h1, h2, h3, h4, h5] ++ (payload ++ [u, v])).getD
      (payload.length + 8 - 1) 0 = v := by
    rw [show payload.length + 8 - 1 = 6 + (payload.length + 1) by omega,
      List.getD_append_right _ _ _ _ (by simp),
      show 6 + (payload.length + 1) - ([h0, h1, h2, h3, h4, h5] : List Nat).length =
        payload.length + 1 by simp,
      List.getD_append_right _ _ _ _ (by omega),
      show payload.length + 1 - payload.length = 1 by omega]
    rfl
  rw [hd, ht, hlen, hg2, hg1]

/-- Processing sub-id and the two length bytes from a just-locked
header state: the length is captured (or the frame aborted when the
declared length exceeds 500). -/
theorem run_start3 (cs : List Nat → Nat × Nat) (sync0 : List Nat)
    (y s2 lo hi p0 : Nat) (hp0 : p0 ≤ 500) :
    runParser cs ⟨sync0, true, [0xAF, 0x20, y], p0⟩ [s2, lo, hi] =
      (if 500 < 256 * hi + lo then
        ⟨sync0, false, [0xAF, 0x20, y, s2, lo, hi], 0⟩
      else
        ⟨sync0, true, [0xAF, 0x20, y, s2, lo, hi], 256 * hi + lo⟩, []) := by
  rw [runParser_cons, step_accum cs ⟨sync0, true, [0xAF, 0x20, y], p0⟩ s2 rfl
    (by simp) (by simp; omega) hp0 (by simp)]
  dsimp only
  simp only [List.cons_append, List.nil_append]
  rw [runParser_cons, step_accum cs ⟨sync0, true, [0xAF, 0x20, y, s2], p0⟩ lo rfl
    (by simp) (by simp; omega) hp0 (by simp)]
  dsimp only
  simp only [List.cons_append, List.nil_append]
  rw [runParser_cons, step_capture cs ⟨sync0, true, [0xAF, 0x20, y, s2, lo], p0⟩ hi rfl
    (by simp)]
  dsimp only
  simp only [List.cons_append, List.nil_append]
  have hg5 : ([0xAF, 0x20, y, s2, lo, hi] : List Nat).getD 5 0 = hi := rfl
  have hg4 : ([0xAF, 0x20, y, s2, lo, hi] : List Nat).getD 4 0 = lo := rfl
  rw [hg5, hg4]
  by_cases hbig : 500 < 256 * hi + lo
  · rw [if_pos hbig, runParser_nil]
    simp
  · rw [if_neg hbig, runParser_nil]
    simp

/-- Processing the two trailer bytes from a state holding header plus
full payload: the frame completes, dispatch is decided by the checksum
comparison, and header search resumes. -/
theorem run_trailer2 (cs : List Nat → Nat × Nat) (sync0 : List Nat)
    (h0 h1 h2 h3 h4 h5 u v : Nat) (payload : List Nat)
    (hp : payload.length ≤ 493) :
    runParser cs ⟨sync0, true, [h0, h1, h2, h3, h4, h5] ++ payload, payload.length⟩
        [u, v] =
      (⟨sync0, false, (([h0, h1, h2, h3, h4, h5] ++ payload) ++ [u]) ++ [v],
        if 500 < 8 + payload.length then 0 else payload.length⟩,
       if (cs payload).1 = u ∧ (cs payload).2 = v then
        [(([h0, h1, h2, h3, h4, h5] ++ payload) ++ [u]) ++ [v]] else []) := by
  rw [runParser_cons, step_accum cs
    ⟨sync0, true, [h0, h1, h2, h3, h4, h5] ++ payload, payload.length⟩ u rfl
    (by simp <;> omega) (by simp <;> omega) (by simp <;> omega) (by simp <;> omega)]
  dsimp only
  rw [runParser_cons, step_complete cs
    ⟨sync0, true, ([h0, h1, h2, h3, h4, h5] ++ payload) ++ [u], payload.length⟩ v rfl
    (by simp <;> omega) (by simp <;> omega)]
  dsimp only
  rw [runParser_nil, checksumPass_eval]
  simp only [decide_eq_true_eq]
  by_cases hok : (cs payload).1 = u ∧ (cs payload).2 = v
  · rw [if_pos hok]
    simp [hok]
  · rw [if_neg hok]
    simp
    exact fun h1 h2 => hok ⟨h1, h2⟩


/-- End-to-end processing of one complete well-formed frame from a
header-search state: the header locks, the declared length is captured,
the payload and trailer accumulate, and the frame is dispatched exactly
when the checksum components of the payload equal the two trailer
bytes. -/
theorem run_frame (cs : List Nat → Nat × Nat) (a b c y s2 u v p0 : Nat)
    (fr0 payload : List Nat) (hp0 : p0 ≤ 500)
    (hy : y = 5 ∨ y = 6 ∨ y = 7) (hp : payload.length ≤ 493) :
    runParser cs ⟨[a, b, c], false, fr0, p0⟩ (mkFrame y s2 payload u v) =
      (⟨[0xAF, 0x20, y], false,
        (([0xAF, 0x20, y, s2, payload.length % 256, payload.length / 256] ++
          payload) ++ [u]) ++ [v],
        if 500 < 8 + payload.length then 0 else payload.length⟩,
       if (cs payload).1 = u ∧ (cs payload).2 = v then
        [(([0xAF, 0x20, y, s2, payload.length % 256, payload.length / 256] ++
          payload) ++ [u]) ++ [v]]
       else []) := by
  have hsplit : mkFrame y s2 payload u v =
      [0xAF, 0x20, y] ++ ([s2, payload.length % 256, payload.length / 256] ++
        (payload ++ [u, v])) := by
    simp [mkFrame]
  rw [hsplit, runParser_append,
    run_find_header cs ⟨[a, b, c], false, fr0, p0⟩ a b c y rfl rfl hy]
  dsimp only
  rw [runParser_append,
    run_start3 cs [0xAF, 0x20, y] y s2 (payload.length % 256)
      (payload.length / 256) p0 hp0]
  have hdm : 256 * (payload.length / 256) + payload.length % 256 =
      payload.length := Nat.div_add_mod payload.length 256
  rw [hdm, if_neg (by omega : ¬ 500 < payload.length)]
  dsimp only
  rw [runParser_append,
    run_accum cs payload
      ⟨[0xAF, 0x20, y], true,
        [0xAF, 0x20, y, s2, payload.length % 256, payload.length / 256],
        payload.length⟩
      rfl (by simp) (by simp <;> omega) (by simp <;> omega) (by simp <;> omega)]
  dsimp only
  rw [run_trailer2 cs [0xAF, 0x20, y] 0xAF 0x20 y s2 (payload.length % 256)
    (payload.length / 256) u v payload hp]
  simp


/-- A successful header match returns one of the three fixed headers. -/
theorem headerMatch_some {s h : List Nat} (hm : headerMatch s = some h) :
    h = HEADER_05 ∨ h = HEADER_06 ∨ h = HEADER_07 := by
  unfold headerMatch at hm
  split at hm
  · exact Or.inl (Option.some.inj hm).symm
  · split at hm
    · exact Or.inr (Or.inl (Option.some.inj hm).symm)
    · split at hm
      · exact Or.inr (Or.inr (Option.some.inj hm).symm)
      · exact absurd hm (by simp)

/-- In-frame step, away from the completion point, on which the
`MAX_FRAME_LIMIT` guard fires (through the updated payload length or the
frame size): the frame is abandoned with no dispatch and header search
resumes. -/
theorem step_abort (cs : List Nat → Nat × Nat) (st : ParserState) (d : Nat)
    (hf : st.find_header = true)
    (hnc : (st.frame ++ [d]).length ≠ 6 + st.payload_len + 2)
    (habort : 500 < stepPl st d ∨ 500 < (st.frame ++ [d]).length) :
    parserStep cs st d =
      ({ st with frame := st.frame ++ [d], find_header := false, payload_len := 0 },
       none) := by
  have hlen : (st.frame ++ [d]).length = st.frame.length + 1 := by simp
  by_cases h6 : st.frame.length + 1 = 6
  · have hbig : 500 < 256 * (st.frame ++ [d]).getD 5 0 + (st.frame ++ [d]).getD 4 0 := by
      rcases habort with h | h
      · unfold stepPl at h
        rw [if_pos h6] at h
        exact h
      · rw [hlen, h6] at h
        omega
    have h6x : (st.frame ++ [d]).length = 6 := by rw [hlen, h6]
    simp only [parserStep, hf, if_true]
    rw [if_pos h6x]
    simp only []
    rw [if_pos (Or.inl hbig)]
  · have hor : 500 < st.payload_len ∨ 500 < (st.frame ++ [d]).length := by
      rcases habort with h | h
      · unfold stepPl at h
        rw [if_neg h6] at h
        exact Or.inl h
      · exact Or.inr h
    have h6x : ¬ (st.frame ++ [d]).length = 6 := by rw [hlen]; exact h6
    simp only [parserStep, hf, if_true]
    rw [if_neg h6x, if_neg hnc]
    simp only []
    rw [if_pos hor]

/-- One parser iteration preserves the reachability invariant. -/
theorem parserStep_inv (cs : List Nat → Nat × Nat) (st : ParserState) (d : Nat)
    (h : ParserInv st) : ParserInv (parserStep cs st d).1 := by
  obtain ⟨hpl, hfr, hacc⟩ := h
  by_cases hf : st.find_header = true
  · have hb : st.frame.length ≤ 500 := hacc hf
    by_cases h6 : st.frame.length + 1 = 6
    · rw [step_capture cs st d hf h6]
      by_cases hbig : 500 <
          256 * (st.frame ++ [d]).getD 5 0 + (st.frame ++ [d]).getD 4 0
      · rw [if_pos hbig]
        exact ⟨by simp, by simp <;> omega, by simp⟩
      · rw [if_neg hbig]
        refine ⟨by simpa using Nat.le_of_not_lt hbig, by simp <;> omega, ?_⟩
        intro hh
        simp
        omega
    · by_cases h8 : st.frame.length + 1 = 6 + st.payload_len + 2
      · rw [step_complete cs st d hf h8 hpl]
        refine ⟨?_, by simp <;> omega, by simp⟩
        simp
        split <;> omega
      · by_cases hov : 500 < st.frame.length + 1
        · rw [step_overflow cs st d hf h6 h8 hov]
          exact ⟨by simp, by simp <;> omega, by simp⟩
        · rw [step_accum cs st d hf h6 h8 hpl (by omega)]
          refine ⟨by simpa using hpl, by simp <;> omega, ?_⟩
          intro hh
          simp
          omega
  · have hf0 : st.find_header = false := by simpa using hf
    cases hm : headerMatch (syncShift st.sync_pattern d) with
    | some hd =>
      rw [step_search_match cs st d _ hd hf0 rfl hm]
      rcases headerMatch_some hm with h | h | h <;>
        exact ⟨by simpa using hpl,
          by simp [h, HEADER_05, HEADER_06, HEADER_07],
          by simp [h, HEADER_05, HEADER_06, HEADER_07]⟩
    | none =>
      rw [step_search_nomatch cs st d _ hf0 rfl hm]
      exact ⟨by simpa using hpl, by simpa using hfr, by simpa using hacc⟩


/-- C1: a frame built as a recognized header, sub-id, correct
little-endian payload length, a payload of at most 493 bytes, and a
trailer equal to the payload checksum is dispatched to `parse_frame`
exactly once; and a frame with a corrupted trailing checksum byte is
discarded while a valid frame following it is still dispatched.  (The
spec's unqualified length claim fails above 493 bytes: see the
counterexample.) -/
theorem valid_frame_dispatch_and_resync (cs : List Nat → Nat × Nat)
    (a b c y y2 s2 s3 u v u2 v2 w p0 : Nat) (fr0 payload payload2 : List Nat)
    (hy : y = 5 ∨ y = 6 ∨ y = 7) (hy2 : y2 = 5 ∨ y2 = 6 ∨ y2 = 7)
    (hp : payload.length ≤ 493) (hp2 : payload2.length ≤ 493)
    (hp0 : p0 ≤ 500)
    (hcs : (cs payload).1 = u ∧ (cs payload).2 = v)
    (hcs2 : (cs payload2).1 = u2 ∧ (cs payload2).2 = v2)
    (hw : w ≠ v) :
    (runParser cs ⟨[a, b, c], false, fr0, p0⟩ (mkFrame y s2 payload u v)).2 =
      [mkFrame y s2 payload u v] ∧
    (runParser cs ⟨[a, b, c], false, fr0, p0⟩
        (mkFrame y s2 payload u w ++ mkFrame y2 s3 payload2 u2 v2)).2 =
      [mkFrame y2 s3 payload2 u2 v2] := by
  constructor
  · rw [run_frame cs a b c y s2 u v p0 fr0 payload hp0 hy hp, if_pos hcs]
    simp [mkFrame]
  · rw [runParser_append,
      run_frame cs a b c y s2 u w p0 fr0 payload hp0 hy hp,
      if_neg (show ¬ ((cs payload).1 = u ∧ (cs payload).2 = w) from
        fun hq => hw (hq.2.symm.trans hcs.2))]
    dsimp only
    rw [run_frame cs 0xAF 0x20 y y2 s3 u2 v2
        (if 500 < 8 + payload.length then 0 else payload.length)
        ((([0xAF, 0x20, y, s2, payload.length % 256, payload.length / 256] ++
          payload) ++ [u]) ++ [w]) payload2
        (by split <;> omega) hy2 hp2,
      if_pos hcs2]
    simp [mkFrame]

set_option maxRecDepth 8000 in
/-- C1 counterexample: a frame whose correctly checksummed payload has
494 bytes reaches the 501-byte mark one byte before its trailer
completes, so the parser abandons it and dispatches nothing, refuting
the claim for unrestricted 16-bit payload lengths. -/
theorem oversize_valid_frame_dropped :
    check_sum_model (List.replicate 494 0) = (0, 0) ∧
    (runParser check_sum_model initParser
      (mkFrame 5 0 (List.replicate 494 0) 0 0)).2 = [] := by
  refine ⟨by decide, ?_⟩
  have hsplit : mkFrame 5 0 (List.replicate 494 0) 0 0 =
      [0xAF, 0x20, 5] ++ ([0, 238, 1] ++ (List.replicate 494 (0:Nat) ++ [0, 0])) := by
    simp [mkFrame]
  rw [hsplit, runParser_append,
    run_find_header check_sum_model initParser 0 0 0 5 rfl rfl (by omega)]
  dsimp only [initParser]
  rw [runParser_append, run_start3 check_sum_model [0xAF, 0x20, 5] 5 0 238 1 0
    (by omega)]
  rw [if_neg (by norm_num : ¬ (500:Nat) < 256 * 1 + 238)]
  dsimp only
  rw [show (256 * 1 + 238 : Nat) = 494 by norm_num]
  rw [runParser_append,
    run_accum check_sum_model (List.replicate 494 0)
      ⟨[0xAF, 0x20, 5], true, [0xAF, 0x20, 5, 0, 238, 1], 494⟩ rfl
      (by norm_num) (by norm_num) (by simp) (by simp)]
  dsimp only
  rw [runParser_cons, step_overflow check_sum_model
    ⟨[0xAF, 0x20, 5], true,
      [0xAF, 0x20, 5, 0, 238, 1] ++ List.replicate 494 0, 494⟩ 0 rfl
    (by simp) (by simp) (by simp)]
  dsimp only [Option.toList]
  rw [runParser_cons, step_search_nomatch check_sum_model
    ⟨[0xAF, 0x20, 5], false,
      ([0xAF, 0x20, 5, 0, 238, 1] ++ List.replicate 494 0) ++ [0], 0⟩ 0
    [0x20, 5, 0] rfl rfl (by decide)]
  dsimp only [Option.toList]
  rw [runParser_nil]
  simp

/-- C1 witness: a one-byte payload frame on header `AF 20 05` is
dispatched once, and a corrupted-trailer frame followed by a valid
`AF 20 06` frame yields exactly the valid frame. -/
theorem valid_frame_dispatch_and_resync_witness :
    (runParser check_sum_model ⟨[0, 0, 0], false, [], 0⟩ (mkFrame 5 0 [1] 1 1)).2 =
      [mkFrame 5 0 [1] 1 1] ∧
    (runParser check_sum_model ⟨[0, 0, 0], false, [], 0⟩
        (mkFrame 5 0 [1] 1 0 ++ mkFrame 6 0 [2] 2 2)).2 = [mkFrame 6 0 [2] 2 2] :=
  valid_frame_dispatch_and_resync check_sum_model 0 0 0 5 6 0 0 1 1 2 2 0 0 []
    [1] [2] (by decide) (by decide) (by decide) (by decide) (by decide)
    (by decide) (by decide) (by decide)

/-- C7: an in-frame step away from the completion point on which the
updated payload length or the frame size exceeds 500 abandons the frame
with no dispatch and resumes header search; the boundedness invariant
holds initially and is preserved by every step; and a declared payload
length of 501 aborts at the length-capture point while a subsequent
well-formed frame is still dispatched. -/
theorem frame_limit_abort_and_recovery (cs : List Nat → Nat × Nat)
    (st : ParserState) (d : Nat) (a b c y y2 s3 s4 u v p0 : Nat)
    (fr0 payload : List Nat)
    (hf : st.find_header = true)
    (hnc : (st.frame ++ [d]).length ≠ 6 + st.payload_len + 2)
    (habort : 500 < stepPl st d ∨ 500 < (st.frame ++ [d]).length)
    (hy : y = 5 ∨ y = 6 ∨ y = 7) (hy2 : y2 = 5 ∨ y2 = 6 ∨ y2 = 7)
    (hp : payload.length ≤ 493) (hp0 : p0 ≤ 500)
    (hcs : (cs payload).1 = u ∧ (cs payload).2 = v) :
    parserStep cs st d =
      ({ st with frame := st.frame ++ [d], find_header := false, payload_len := 0 },
       none) ∧
    (∀ st2 e, ParserInv st2 → ParserInv (parserStep cs st2 e).1) ∧
    ParserInv initParser ∧
    (runParser cs ⟨[a, b, c], false, fr0, p0⟩
        (([0xAF, 0x20, y] ++ [s3, 245, 1]) ++ mkFrame y2 s4 payload u v)).2 =
      [mkFrame y2 s4 payload u v] := by
  refine ⟨step_abort cs st d hf hnc habort,
    fun st2 e h2 => parserStep_inv cs st2 e h2,
    ⟨by simp [initParser], by simp [initParser], by simp [initParser]⟩, ?_⟩
  rw [runParser_append, runParser_append,
    run_find_header cs ⟨[a, b, c], false, fr0, p0⟩ a b c y rfl rfl hy]
  dsimp only
  rw [run_start3 cs [0xAF, 0x20, y] y s3 245 1 p0 hp0,
    if_pos (by norm_num : (500:Nat) < 256 * 1 + 245)]
  dsimp only
  rw [run_frame cs 0xAF 0x20 y y2 s4 u v 0
      [0xAF, 0x20, y, s3, 245, 1] payload (by omega) hy2 hp,
    if_pos hcs]
  simp [mkFrame]

/-- C7 witness: a concrete abort step (declared length 501 at the
capture point) and a concrete post-abort stream whose valid frame is
dispatched. -/
theorem frame_limit_abort_and_recovery_witness :
    parserStep check_sum_model ⟨[0, 0, 0], true, [0xAF, 0x20, 5, 0, 245], 0⟩ 1 =
      (⟨[0, 0, 0], false, [0xAF, 0x20, 5, 0, 245, 1], 0⟩, none) ∧
    (∀ st2 e, ParserInv st2 → ParserInv (parserStep check_sum_model st2 e).1) ∧
    ParserInv initParser ∧
    (runParser check_sum_model ⟨[0, 0, 0], false, [], 0⟩
        (([0xAF, 0x20, 5] ++ [0, 245, 1]) ++ mkFrame 6 0 [1] 1 1)).2 =
      [mkFrame 6 0 [1] 1 1] :=
  frame_limit_abort_and_recovery check_sum_model
    ⟨[0, 0, 0], true, [0xAF, 0x20, 5, 0, 245], 0⟩ 1 0 0 0 5 6 0 0 1 1 0 [] [1]
    rfl (by decide) (by decide) (by decide) (by decide) (by decide) (by decide)
    (by decide)


/-- Field names survive the decode in declared order. -/
theorem splitDecode_names : ∀ (fields : List PField) (bs : List Nat),
    (splitDecode fields bs).map Prod.fst = fields.map PField.name
  | [], _ => rfl
  | f :: fs, bs => by
    simp only [splitDecode, List.map_cons]
    rw [splitDecode_names fs]

/-- Positional characterization of the sequential decode: field `i` is
paired with the value decoded from its own byte slice. -/
theorem splitDecode_get :
    ∀ (fields : List PField) (bs : List Nat) (i : Nat) (hi : i < fields.length),
    (splitDecode fields bs)[i]? =
      some ((fields.get ⟨i, hi⟩).name,
        decodeField (fields.get ⟨i, hi⟩).type
          ((bs.drop (fieldOffset fields i)).take
            (typeWidth (fields.get ⟨i, hi⟩).type)))
  | f :: fs, bs, 0, hi => by
    simp [splitDecode, fieldOffset]
  | f :: fs, bs, i + 1, hi => by
    have hi2 : i < fs.length := by simpa using hi
    simp only [splitDecode, List.getElem?_cons_succ]
    rw [splitDecode_get fs (bs.drop (typeWidth f.type)) i hi2]
    have hoff : fieldOffset (f :: fs) (i + 1) =
        typeWidth f.type + fieldOffset fs i := by
      simp [fieldOffset]
    rw [List.drop_drop, hoff]
    simp [Nat.add_comm]

/-- C2: for a catalog of all non-string fields, the decode succeeds
exactly when the payload length equals the summed field widths (not
merely at least them); on success the result zips the field names in
declared order onto the values decoded little-endian from each field's
own byte slice. -/
theorem fixed_shape_decode (fields : List PField) (payload : List Nat) (pl : Nat)
    (hns : ∀ f ∈ fields, f.type ≠ FieldType.string) :
    (unpack_output_packet fields payload pl =
        some (.fields (splitDecode fields payload)) ↔
      payload.length = (fields.map fun f => typeWidth f.type).sum) ∧
    ((splitDecode fields payload).map Prod.fst = fields.map PField.name) ∧
    (∀ i (hi : i < fields.length),
      (splitDecode fields payload)[i]? =
        some ((fields.get ⟨i, hi⟩).name,
          decodeField (fields.get ⟨i, hi⟩).type
            ((payload.drop (fieldOffset fields i)).take
              (typeWidth (fields.get ⟨i, hi⟩).type)))) := by
  have hfind : fields.find? (fun f => f.type = FieldType.string) = none := by
    rw [List.find?_eq_none]
    intro f hf
    simp [hns f hf]
  refine ⟨?_, splitDecode_names fields payload,
    fun i hi => splitDecode_get fields payload i hi⟩
  unfold unpack_output_packet
  rw [hfind]
  constructor
  · intro h
    by_contra hne
    rw [if_neg hne] at h
    exact Option.noConfusion h
  · intro h
    rw [if_pos h]

/-- C2 counterexample: a single `uint16` field needs 2 bytes, yet a
3-byte payload (length at least 2) is rejected, refuting the claim's
"succeeds for every payload whose length is at least N". -/
theorem fixed_shape_decode_overlong_payload_rejected :
    ((([⟨"a", FieldType.uint16⟩] : List PField).map fun f => typeWidth f.type).sum
        = 2) ∧
    unpack_output_packet [⟨"a", FieldType.uint16⟩] [1, 2, 3] 3 = none := by
  constructor
  · rfl
  · decide

/-- C2 witness: a `uint16` then `int16` catalog decodes `[1, 2, FF, FF]`
to 513 and -1, named in order. -/
theorem fixed_shape_decode_witness :
    (unpack_output_packet [⟨"t", FieldType.uint16⟩, ⟨"u", FieldType.int16⟩]
        [1, 2, 0xFF, 0xFF] 4 =
      some (.fields (splitDecode
        [⟨"t", FieldType.uint16⟩, ⟨"u", FieldType.int16⟩] [1, 2, 0xFF, 0xFF])) ↔
      ([1, 2, 0xFF, 0xFF] : List Nat).length =
        (([⟨"t", FieldType.uint16⟩, ⟨"u", FieldType.int16⟩] : List PField).map
          fun f => typeWidth f.type).sum) ∧
    ((splitDecode [⟨"t", FieldType.uint16⟩, ⟨"u", FieldType.int16⟩]
        [1, 2, 0xFF, 0xFF]).map Prod.fst =
      ([⟨"t", FieldType.uint16⟩, ⟨"u", FieldType.int16⟩] : List PField).map
        PField.name) ∧
    (∀ i (hi : i < ([⟨"t", FieldType.uint16⟩, ⟨"u", FieldType.int16⟩] :
        List PField).length),
      (splitDecode [⟨"t", FieldType.uint16⟩, ⟨"u", FieldType.int16⟩]
          [1, 2, 0xFF, 0xFF])[i]? =
        some ((([⟨"t", FieldType.uint16⟩, ⟨"u", FieldType.int16⟩] :
            List PField).get ⟨i, hi⟩).name,
          decodeField (([⟨"t", FieldType.uint16⟩, ⟨"u", FieldType.int16⟩] :
              List PField).get ⟨i, hi⟩).type
            ((([1, 2, 0xFF, 0xFF] : List Nat).drop
              (fieldOffset [⟨"t", FieldType.uint16⟩, ⟨"u", FieldType.int16⟩] i)).take
              (typeWidth (([⟨"t", FieldType.uint16⟩, ⟨"u", FieldType.int16⟩] :
                List PField).get ⟨i, hi⟩).type)))) :=
  fixed_shape_decode [⟨"t", FieldType.uint16⟩, ⟨"u", FieldType.int16⟩]
    [1, 2, 0xFF, 0xFF] 4 (by decide)


/-- C3: a successfully packed `060D` command is the header
`AF 20 06 0D`, the two-byte little-endian payload length, the payload,
and then the two checksum components appended in REVERSED order
(`result[1]` before `result[0]`), so the parser's inbound validation
accepts the re-ingested frame only in the degenerate case where the two
checksum components coincide. -/
theorem pack_msg_060D_trailer (cs : List Nat → Nat × Nat) (m m2 : Msg060C)
    (cmd : List Nat) (h : pack_msg_060D cs m = some (m2, cmd)) :
    ∃ payload r1 r2,
      pack_payload_060D m = some (payload, m2.flags) ∧
      cs payload = (r1, r2) ∧
      cmd = (FRAME_HEADER_060D ++ le2 payload.length ++ payload) ++ [r2, r1] ∧
      (frameValid cs cmd = true ↔ r1 = r2) := by
  unfold pack_msg_060D at h
  cases hpf : pack_payload_060D m with
  | none =>
    rw [hpf] at h
    simp at h
  | some pf =>
    rw [hpf] at h
    by_cases hlen : pf.1.length < 65536
    · simp [pguard, hlen] at h
      obtain ⟨hm2, hcmd⟩ := h
      have hdrop : (FRAME_HEADER_060D ++ (le2 pf.1.length ++ pf.1)).drop 6 =
          pf.1 := rfl
      rw [hdrop] at hcmd
      subst hcmd
      refine ⟨pf.1, (cs pf.1).1, (cs pf.1).2, by rw [← hm2], rfl, by simp, ?_⟩
      have hflat : FRAME_HEADER_060D ++ (le2 pf.1.length ++
          (pf.1 ++ [(cs pf.1).2, (cs pf.1).1])) =
          ((([0xAF, 0x20, 0x06, 0x0D, pf.1.length % 256,
            pf.1.length / 256 % 256] ++ pf.1) ++ [(cs pf.1).2]) ++
            [(cs pf.1).1]) := by
        simp [FRAME_HEADER_060D, le2, leBytes]
      unfold frameValid
      rw [hflat]
      have hg4 : ((([0xAF, 0x20, 0x06, 0x0D, pf.1.length % 256,
          pf.1.length / 256 % 256] ++ pf.1) ++ [(cs pf.1).2]) ++
          [(cs pf.1).1]).getD 4 0 = pf.1.length % 256 := rfl
      have hg5 : ((([0xAF, 0x20, 0x06, 0x0D, pf.1.length % 256,
          pf.1.length / 256 % 256] ++ pf.1) ++ [(cs pf.1).2]) ++
          [(cs pf.1).1]).getD 5 0 = pf.1.length / 256 % 256 := rfl
      have hplen : 256 * (pf.1.length / 256 % 256) + pf.1.length % 256 =
          pf.1.length := by
        have h1 : pf.1.length / 256 < 256 := by omega
        rw [Nat.mod_eq_of_lt h1]
        omega
      rw [hg4, hg5, hplen, checksumPass_eval]
      simp only [decide_eq_true_eq]
      constructor
      · exact fun hq => hq.1
      · exact fun hq => ⟨hq, hq.symm⟩
    · simp [pguard, hlen] at h

set_option maxRecDepth 8000 in
/-- C3 counterexample: packing a concrete configuration message with the
modelled checksum yields a frame the parser's own checksum validation
rejects, because the trailer bytes are appended in the order
`result[1]`, `result[0]` while the parser compares them the other way
round. -/
theorem pack_msg_060D_trailer_cex :
    (pack_msg_060D check_sum_model msgPackSample).isSome = true ∧
    ((pack_msg_060D check_sum_model msgPackSample).map
      (fun pr => frameValid check_sum_model pr.2)) = some false := by
  constructor
  · decide
  · decide

set_option maxRecDepth 8000 in
/-- C3 witness: the packed sample frame decomposes as header, length,
payload and reversed checksum trailer. -/
theorem pack_msg_060D_trailer_witness :
    ∃ m2 cmd, pack_msg_060D check_sum_model msgPackSample = some (m2, cmd) ∧
      ∃ payload r1 r2,
        pack_payload_060D msgPackSample = some (payload, m2.flags) ∧
        check_sum_model payload = (r1, r2) ∧
        cmd = (FRAME_HEADER_060D ++ le2 payload.length ++ payload) ++ [r2, r1] ∧
        (frameValid check_sum_model cmd = true ↔ r1 = r2) := by
  obtain ⟨pr, hpr⟩ := Option.isSome_iff_exists.mp
    (show (pack_msg_060D check_sum_model msgPackSample).isSome = true by decide)
  exact ⟨pr.1, pr.2, by rw [hpr],
    pack_msg_060D_trailer check_sum_model msgPackSample pr.1 pr.2 (by rw [hpr])⟩


/-- C8: handling a CNM packet with KFN, CNM and GH all cached emits a
derived NAV packet whose System time is KFN's System time as an
integer, whose Position and Velocity modes come from the numeric-code
name table, whose MSL height is CNM's ellipsoidal height minus GH's
geoid height, and whose Position, Velocity and Attitude RMS are the
square root of the sum of squares of CNM's three corresponding RMS
components. -/
theorem nav_synthesis (pr : MathPrims) (msgs : List (String × Packet))
    (packet kfn cnm gh nav : Packet)
    (sysTime pm vm att : Int) (pmName vmName atName : String)
    (prn pre prd vrn vre vrd arn are ard q0 q1 q2 q3 : ℚ)
    (tow gw lat lon eh velN velE velD : PVal) (ehr ghr : ℚ)
    (hk : aget (aset msgs "CNM" packet) "KFN" = some kfn)
    (hc : aget (aset msgs "CNM" packet) "CNM" = some cnm)
    (hg : aget (aset msgs "CNM" packet) "GH" = some gh)
    (hrms : ["Position RMS-N", "Position RMS-E", "Position RMS-D",
             "Velocity RMS-N", "Velocity RMS-E", "Velocity RMS-D",
             "Attitude RMS-N", "Attitude RMS-E", "Attitude RMS-D",
             "Attitude quaternion-Scalar", "Attitude quaternion-X",
             "Attitude quaternion-Y", "Attitude quaternion-Z"].mapM
        (ratField cnm) =
      some [prn, pre, prd, vrn, vre, vrd, arn, are, ard, q0, q1, q2, q3])
    (hcopy : ["Time of week", "GPS week", "Latitude", "Longitude",
              "Ellipsoidal height", "Vel N", "Vel E", "Vel D"].mapM (aget cnm) =
      some [tow, gw, lat, lon, eh, velN, velE, velD])
    (hst : (aget kfn "System time").bind pvalInt = some sysTime)
    (heh : pvalRat eh = some ehr)
    (hghr : ratField gh "Geoid height" = some ghr)
    (hpm : (aget kfn "Position mode").bind modeKey = some pm)
    (hvm : (aget kfn "Velocity mode").bind modeKey = some vm)
    (hat : (aget kfn "Attitude status").bind modeKey = some att)
    (hpmN : nav_pos_vel_mode pm = some pmName)
    (hvmN : nav_pos_vel_mode vm = some vmName)
    (hatN : nav_att_mode att = some atName)
    (hnav : buildNav pr kfn cnm gh = some nav) :
    packet_handler pr msgs "CNM" packet =
      ⟨aset msgs "CNM" packet,
       [("event", "CNM", packet), ("event", "NAV", nav)], [("NAV", nav)], false⟩ ∧
    aget nav "System time" = some (.i sysTime) ∧
    aget nav "Position mode" = some (.s pmName) ∧
    aget nav "Velocity mode" = some (.s vmName) ∧
    aget nav "MSL height" = some (.q (ehr - ghr)) ∧
    aget nav "Position RMS" = some (.q (pr.sqrtFn (prn ^ 2 + pre ^ 2 + prd ^ 2))) ∧
    aget nav "Velocity RMS" = some (.q (pr.sqrtFn (vrn ^ 2 + vre ^ 2 + vrd ^ 2))) ∧
    aget nav "Attitude RMS" =
      some (.q (pr.sqrtFn (arn ^ 2 + are ^ 2 + ard ^ 2))) := by
  have hlit : buildNav pr kfn cnm gh = some
      [("System time", .i sysTime), ("Time of week", tow), ("GPS week", gw),
       ("Position mode", .s pmName), ("Latitude", lat), ("Longitude", lon),
       ("Ellipsoidal height", eh), ("MSL height", .q (ehr - ghr)),
       ("Position RMS", .q (pr.sqrtFn (prn ^ 2 + pre ^ 2 + prd ^ 2))),
       ("Velocity mode", .s vmName), ("Vel N", velN), ("Vel E", velE),
       ("Vel D", velD),
       ("Velocity RMS", .q (pr.sqrtFn (vrn ^ 2 + vre ^ 2 + vrd ^ 2))),
       ("Attitude status", .s atName),
       ("Roll", .q ((pr.calAtt q0 q1 q2 q3).1 * pr.r2d)),
       ("Pitch", .q ((pr.calAtt q0 q1 q2 q3).2.1 * pr.r2d)),
       ("Heading", .q ((pr.calAtt q0 q1 q2 q3).2.2 * pr.r2d)),
       ("Attitude RMS", .q (pr.sqrtFn (arn ^ 2 + are ^ 2 + ard ^ 2)))] := by
    simp only [buildNav, hrms, hcopy, hst, heh, hghr, hpm, hvm, hat, hpmN, hvmN,
      hatN, Option.some_bind]
  have hne := hnav.symm.trans hlit
  obtain rfl := Option.some.inj hne
  refine ⟨?_, by simp [aget], by simp [aget], by simp [aget], by simp [aget],
    by simp [aget], by simp [aget], by simp [aget]⟩
  simp [packet_handler, hk, hc, hg, hnav]


/-- C8 witness: the spec's NAV example.  The 3-4-5 RMS triangle gives
Position RMS 1/2 and ellipsoidal height 110 minus geoid height 10 gives
MSL height 100 under the modelled square root. -/
theorem nav_synthesis_witness :
    (∃ nav,
      packet_handler prims_model [("KFN", kfnSample), ("GH", ghSample)] "CNM"
          cnmSample =
        ⟨aset [("KFN", kfnSample), ("GH", ghSample)] "CNM" cnmSample,
         [("event", "CNM", cnmSample), ("event", "NAV", nav)], [("NAV", nav)],
         false⟩ ∧
      aget nav "System time" = some (.i 100) ∧
      aget nav "Position mode" = some (.s "STAND_ALONE") ∧
      aget nav "Velocity mode" = some (.s "STAND_ALONE") ∧
      aget nav "MSL height" = some (.q ((110 : ℚ) - 10)) ∧
      aget nav "Position RMS" =
        some (.q (prims_model.sqrtFn
          (((3:ℚ)/10) ^ 2 + ((2:ℚ)/5) ^ 2 + (0:ℚ) ^ 2))) ∧
      aget nav "Velocity RMS" =
        some (.q (prims_model.sqrtFn ((0:ℚ) ^ 2 + (0:ℚ) ^ 2 + (0:ℚ) ^ 2))) ∧
      aget nav "Attitude RMS" =
        some (.q (prims_model.sqrtFn ((0:ℚ) ^ 2 + (0:ℚ) ^ 2 + (0:ℚ) ^ 2)))) ∧
    prims_model.sqrtFn (((3:ℚ)/10) ^ 2 + ((2:ℚ)/5) ^ 2 + (0:ℚ) ^ 2) = 1/2 ∧
    (110 : ℚ) - 10 = 100 := by
  refine ⟨⟨_, nav_synthesis prims_model [("KFN", kfnSample), ("GH", ghSample)]
    cnmSample kfnSample cnmSample ghSample
    [("System time", .i 100), ("Time of week", .q 5), ("GPS week", .i 2000),
     ("Position mode", .s "STAND_ALONE"), ("Latitude", .q 1), ("Longitude", .q 2),
     ("Ellipsoidal height", .q 110), ("MSL height", .q ((110 : ℚ) - 10)),
     ("Position RMS", .q (prims_model.sqrtFn
        (((3:ℚ)/10) ^ 2 + ((2:ℚ)/5) ^ 2 + (0:ℚ) ^ 2))),
     ("Velocity mode", .s "STAND_ALONE"), ("Vel N", .q 0), ("Vel E", .q 0),
     ("Vel D", .q 0),
     ("Velocity RMS", .q (prims_model.sqrtFn
        ((0:ℚ) ^ 2 + (0:ℚ) ^ 2 + (0:ℚ) ^ 2))),
     ("Attitude status", .s "FINE"),
     ("Roll", .q ((prims_model.calAtt 1 0 0 0).1 * prims_model.r2d)),
     ("Pitch", .q ((prims_model.calAtt 1 0 0 0).2.1 * prims_model.r2d)),
     ("Heading", .q ((prims_model.calAtt 1 0 0 0).2.2 * prims_model.r2d)),
     ("Attitude RMS", .q (prims_model.sqrtFn
        ((0:ℚ) ^ 2 + (0:ℚ) ^ 2 + (0:ℚ) ^ 2)))]
    100 2 2 2 "STAND_ALONE" "STAND_ALONE" "FINE"
    ((3:ℚ)/10) ((2:ℚ)/5) 0 0 0 0 0 0 0 1 0 0 0
    (.q 5) (.i 2000) (.q 1) (.q 2) (.q 110) (.q 0) (.q 0) (.q 0) 110 10
    rfl rfl rfl rfl rfl rfl rfl rfl rfl rfl rfl rfl rfl rfl rfl⟩, ?_, by norm_num⟩
  have h1 : ((3:ℚ)/10) ^ 2 + ((2:ℚ)/5) ^ 2 + (0:ℚ) ^ 2 = 1/4 := by norm_num
  have hs1 : Nat.sqrt 1 = 1 := Nat.sqrt_one
  have hs4 : Nat.sqrt 4 = 2 := by
    rw [show (4:Nat) = 2 * 2 from rfl]
    exact Nat.sqrt_eq 2
  show ratSqrt_model (((3:ℚ)/10) ^ 2 + ((2:ℚ)/5) ^ 2 + (0:ℚ) ^ 2) = 1/2
  rw [h1]
  unfold ratSqrt_model
  rw [if_neg (by norm_num : ¬ ((1:ℚ)/4) < 0),
    show ((1:ℚ)/4).num = 1 from by norm_num,
    show ((1:ℚ)/4).den = 4 from by norm_num,
    show ((1:Int)).toNat = 1 from rfl, hs1, hs4]
  norm_num


/-- `digitsPad` yields at least the requested number of digits. -/
theorem digitsPad_length (n len : Nat) : len ≤ (digitsPad n len).length := by
  unfold digitsPad
  by_cases h : (toString n).data.length < len
  · rw [if_pos h]
    simp
    omega
  · rw [if_neg h]
    omega

/-- Every fixed-point rendering carries exactly `frac` characters after
its decimal point. -/
theorem fmtFixed_decimal (w f : Nat) (q : ℚ) :
    ∃ pre post, fmtFixed w f q = pre ++ '.' :: post ∧ post.length = f := by
  have hlen : f + 1 ≤
      (digitsPad (ratFloor (q * (10 ^ f : ℚ) + 1 / 2)).natAbs (f + 1)).length :=
    digitsPad_length _ _
  unfold fmtFixed
  dsimp only
  split <;> split
  · exact ⟨_, _, (List.append_assoc _ _ _).symm, by rw [List.length_drop]; omega⟩
  · exact ⟨_, _, rfl, by rw [List.length_drop]; omega⟩
  · exact ⟨_, _, (List.append_assoc _ _ _).symm, by rw [List.length_drop]; omega⟩
  · exact ⟨_, _, rfl, by rw [List.length_drop]; omega⟩

/-- The source's trailing-comma accumulation followed by `[:-1]` equals
the spec's comma-join with no trailing comma. -/
theorem commaJoin_dropLast : ∀ l : List (List Char),
    (commaJoin l).dropLast = commaJoinSpec l
  | [] => rfl
  | [x] => by
    show ((x ++ [',']) ++ []).dropLast = commaJoinSpec [x]
    rw [List.append_nil, List.dropLast_concat]
    rfl
  | x :: y :: rest => by
    have ih := commaJoin_dropLast (y :: rest)
    have hne : commaJoin (y :: rest) ≠ [] := by simp [commaJoin]
    rw [show commaJoin (x :: y :: rest) = (x ++ [',']) ++ commaJoin (y :: rest)
        from rfl,
      List.dropLast_append_of_ne_nil _ hne, ih,
      show commaJoinSpec (x :: y :: rest) = x ++ ',' :: commaJoinSpec (y :: rest)
        from rfl]
    simp

/-- C9: on the first call for a packet type the logger writes the
comma-joined header (no trailing comma) plus newline immediately
followed by one data line; on every later call exactly one data line;
integer types and `uint8` render as plain decimal, `char`/`uchar` as
their raw text, and `double`/`float` carry exactly 12 and 8 fractional
digits. -/
theorem csv_log_shape (entry : List PField) (data : List (String × PVal))
    (names cells : List (List Char)) (q : ℚ)
    (hn : buildLabels entry 0 data = some names)
    (hr : buildRow entry 0 data = some cells) :
    log entry data 0 =
      some ((commaJoinSpec names ++ ['\n']) ++ (commaJoinSpec cells ++ ['\n']),
        1) ∧
    (∀ n, 0 < n →
      log entry data n = some (commaJoinSpec cells ++ ['\n'], n + 1)) ∧
    (∀ z : Int, fmtField .uint32 (.i z) = some (toString z).data ∧
      fmtField .int16 (.i z) = some (toString z).data ∧
      fmtField .uint8 (.i z) = some (toString z).data) ∧
    (∀ v, fmtField .char v = some (pvalStr v).data) ∧
    (∃ pre post, fmtField .double (.q q) = some (pre ++ '.' :: post) ∧
      post.length = 12) ∧
    (∃ pre post, fmtField .float (.q q) = some (pre ++ '.' :: post) ∧
      post.length = 8) := by
  refine ⟨?_, ?_, fun z => ⟨rfl, rfl, rfl⟩, fun v => rfl, ?_, ?_⟩
  · simp [log, hn, hr, commaJoin_dropLast]
  · intro n hnpos
    have hne0 : ¬ n = 0 := by omega
    simp [log, hr, hne0, commaJoin_dropLast]
  · obtain ⟨pre, post, he, hl⟩ := fmtFixed_decimal 15 12 q
    exact ⟨pre, post,
      by rw [show fmtField FieldType.double (.q q) = some (fmtFixed 15 12 q)
          from rfl, he], hl⟩
  · obtain ⟨pre, post, he, hl⟩ := fmtFixed_decimal 12 8 q
    exact ⟨pre, post,
      by rw [show fmtField FieldType.float (.q q) = some (fmtFixed 12 8 q)
          from rfl, he], hl⟩


/-- Concrete fixed-point rendering of 1.5 as a `double`: width 15 with
exactly 12 fractional digits. -/
theorem fmtFixed_eval_sample :
    fmtFixed 15 12 ((3:ℚ)/2) = " 1.500000000000".data := by
  have h1 : (3:ℚ)/2 * (10 ^ 12 : ℚ) + 1 / 2 = 3000000000001 / 2 := by norm_num
  have hsc : ratFloor ((3:ℚ)/2 * (10 ^ 12 : ℚ) + 1 / 2) = 1500000000000 := by
    unfold ratFloor
    rw [h1, show ((3000000000001:ℚ) / 2).num = 3000000000001 from by norm_num,
      show ((3000000000001:ℚ) / 2).den = 2 from by norm_num]
    decide
  unfold fmtFixed
  rw [hsc]
  decide

/-- C9 witness: a `double`/`uint32` catalog; the first call writes the
header line and one data line, later calls exactly one data line, and
the double cell renders as ` 1.500000000000`. -/
theorem csv_log_shape_witness :
    (log [⟨"t", FieldType.double⟩, ⟨"n", FieldType.uint32⟩]
        [("t", .q ((3:ℚ)/2)), ("n", .i 7)] 0 =
      some ((commaJoinSpec ["t".data, "n".data] ++ ['\n']) ++
        (commaJoinSpec [fmtFixed 15 12 ((3:ℚ)/2), (toString (7:Int)).data] ++
          ['\n']), 1) ∧
    (∀ n, 0 < n →
      log [⟨"t", FieldType.double⟩, ⟨"n", FieldType.uint32⟩]
          [("t", .q ((3:ℚ)/2)), ("n", .i 7)] n =
        some (commaJoinSpec [fmtFixed 15 12 ((3:ℚ)/2),
          (toString (7:Int)).data] ++ ['\n'], n + 1)) ∧
    (∀ z : Int, fmtField .uint32 (.i z) = some (toString z).data ∧
      fmtField .int16 (.i z) = some (toString z).data ∧
      fmtField .uint8 (.i z) = some (toString z).data) ∧
    (∀ v, fmtField .char v = some (pvalStr v).data) ∧
    (∃ pre post, fmtField .double (.q ((3:ℚ)/2)) = some (pre ++ '.' :: post) ∧
      post.length = 12) ∧
    (∃ pre post, fmtField .float (.q ((3:ℚ)/2)) = some (pre ++ '.' :: post) ∧
      post.length = 8)) ∧
    fmtFixed 15 12 ((3:ℚ)/2) = " 1.500000000000".data :=
  ⟨csv_log_shape [⟨"t", FieldType.double⟩, ⟨"n", FieldType.uint32⟩]
    [("t", .q ((3:ℚ)/2)), ("n", .i 7)]
    ["t".data, "n".data]
    [fmtFixed 15 12 ((3:ℚ)/2), (toString (7:Int)).data]
    ((3:ℚ)/2) rfl rfl, fmtFixed_eval_sample⟩

end INS1000
